import Mathlib

/-! ssl-scanner: the analysis orchestration engine and the report formatter

A shallow embedding of `service/scanner.go` and `output/formatter.go` (with the
data model of `model/model.go`) and theorems about them.

* Go `string` values are Lean `String`s; `len(s)` is the UTF-8 byte length
  `String.utf8ByteSize`, and `regexp` reads the string rune by rune, here
  `Char` by `Char`.  (A Go string that is not valid UTF-8 has no counterpart; the
  regexp package reads its bad bytes as U+FFFD, which no class of `domainRegex`
  contains.)
* Go `error` values are represented by their message (`err.Error()`); wrapping
  with `%w` is string concatenation, as `fmt.Errorf` renders it.
* Go `int` / `int64` fields are `Int`; the orchestration code only compares them.
* `time.Duration` values are natural numbers of nanoseconds.
* The collaborators (HTTP client, cache files, clock, cancellation context) are
  explicit parameters: every behaviour of the outside world is one choice of
  these parameters, and every interaction is recorded in a trace of `Event`s.
  The cache helpers `CheckDomainInCache`, `LoadLocalCache` and
  `SaveToLocalCache` of package `client` are known by their call sites only and
  are left arbitrary.
* The polling loop consumes one scripted `PollStep` per iteration; a run whose
  script is used up before the loop returns has `result = none`.
-/

set_option maxRecDepth 100000
set_option linter.dupNamespace false

namespace SSLScanner

/-! ## Data model (`model/model.go`) -/

/-- Go `model.Info`. -/
structure Info where
  Version : String := ""
  CriteriaVersion : String := ""
  MaxAssessments : Int := 0
  CurrentAssessments : Int := 0
  NewAssessmentCoolOff : Int := 0
  Messages : List String := []
deriving DecidableEq

/-- Go `model.Key`. -/
structure Key where
  Size : Int := 0
  Strength : Int := 0
  Alg : String := ""
  DebianFlaw : Bool := false
  Q : Option Int := none
deriving DecidableEq

/-- Go `model.Cert`. -/
structure Cert where
  Subject : String := ""
  CommonNames : List String := []
  AltNames : List String := []
  NotBefore : Int := 0
  NotAfter : Int := 0
  IssuerSubject : String := ""
  SigAlg : String := ""
  IssuerLabel : String := ""
  RevocationInfo : Int := 0
  CrlURIs : List String := []
  OcspURIs : List String := []
  RevocationStatus : Int := 0
  SGC : Int := 0
  ValidationType : String := ""
  Issues : Int := 0
  SCT : Bool := false
deriving DecidableEq

/-- Go `model.ChainCert`. -/
structure ChainCert where
  Subject : String := ""
  Label : String := ""
  NotBefore : Int := 0
  NotAfter : Int := 0
  IssuerSubject : String := ""
  IssuerLabel : String := ""
  SigAlg : String := ""
  Issues : Int := 0
  KeyAlg : String := ""
  KeySize : Int := 0
  KeyStrength : Int := 0
  RevocationStatus : Int := 0
  CrlRevocationStatus : Int := 0
  OcspRevocationStatus : Int := 0
  Raw : String := ""
deriving DecidableEq

/-- Go `model.Chain`. -/
structure Chain where
  Certs : List ChainCert := []
  Issues : Int := 0
deriving DecidableEq

/-- Go `model.Protocol`. -/
structure Protocol where
  ID : Int := 0
  Name : String := ""
  Version : String := ""
  V2SuitesDisabled : Bool := false
  Q : Option Int := none
deriving DecidableEq

/-- Go `model.Suite`. -/
structure Suite where
  ID : Int := 0
  Name : String := ""
  CipherStrength : Int := 0
  DhStrength : Int := 0
  DhP : Int := 0
  DhG : Int := 0
  DhYs : Int := 0
  EcdhBits : Int := 0
  EcdhStrength : Int := 0
  Q : Option Int := none
deriving DecidableEq

/-- Go `model.Suites`. -/
structure Suites where
  List : List Suite := []
  Preference : Bool := false
deriving DecidableEq

/-- Go `model.HstsPolicy`.  The field `Directives` (an untyped `interface{}` that
the program never reads) is not represented. -/
structure HstsPolicy where
  Header : String := ""
  Status : String := ""
  Error : String := ""
  MaxAge : Int := 0
  IncludeSubDomains : Bool := false
  Preload : Bool := false
deriving DecidableEq

/-- Go `model.EndpointDetails`; pointer fields are `Option`s. -/
structure EndpointDetails where
  HostStartTime : Int := 0
  Key : Option Key := none
  Cert : Option Cert := none
  Chain : Option Chain := none
  Protocols : List Protocol := []
  Suites : Option Suites := none
  ServerSignature : String := ""
  VulnBeast : Bool := false
  RenegSupport : Int := 0
  SessionResumption : Int := 0
  CompressionMethods : Int := 0
  SupportsNpn : Bool := false
  NpnProtocols : String := ""
  SessionTickets : Int := 0
  OcspStapling : Bool := false
  SniRequired : Bool := false
  HTTPStatusCode : Int := 0
  HTTPForwarding : String := ""
  SupportsRC4 : Bool := false
  RC4WithModern : Bool := false
  RC4Only : Bool := false
  ForwardSecrecy : Int := 0
  Heartbleed : Bool := false
  Heartbeat : Bool := false
  OpenSSLCcs : Int := 0
  Poodle : Bool := false
  PoodleTLS : Int := 0
  FallbackScsv : Bool := false
  Freak : Bool := false
  HasSct : Int := 0
  DhPrimes : List String := []
  DhUsesKnownPrimes : Int := 0
  DhYsReuse : Bool := false
  Logjam : Bool := false
  ChaCha20Preference : Bool := false
  HstsPolicy : Option HstsPolicy := none
deriving DecidableEq

/-- Go `model.Endpoint`. -/
structure Endpoint where
  IPAddress : String := ""
  ServerName : String := ""
  StatusMessage : String := ""
  StatusDetails : String := ""
  StatusDetailsMessage : String := ""
  Grade : String := ""
  GradeTrustIgnored : String := ""
  HasWarnings : Bool := false
  IsExceptional : Bool := false
  Progress : Int := 0
  Duration : Int := 0
  ETA : Int := 0
  Delegation : Int := 0
  Details : Option EndpointDetails := none
deriving DecidableEq

/-- Go `model.Host`: the job result handed back by the remote service. -/
structure Host where
  Host : String := ""
  Port : Int := 0
  Protocol : String := ""
  IsPublic : Bool := false
  Status : String := ""
  StatusMessage : String := ""
  StartTime : Int := 0
  TestTime : Int := 0
  EngineVersion : String := ""
  CriteriaVersion : String := ""
  Endpoints : List Endpoint := []
  CertHostnames : List String := []
deriving DecidableEq

/-! ## Constants (`service/scanner.go`, lines 13-22) -/

def StatusDNS : String := "DNS"
def StatusError : String := "ERROR"
def StatusInProgress : String := "IN_PROGRESS"
def StatusReady : String := "READY"

/-- Go `time.Second`, in nanoseconds. -/
def Second : Nat := 1000000000
/-- Go `time.Minute`, in nanoseconds. -/
def Minute : Nat := 60 * Second

def PollIntervalInitial : Nat := 5 * Second
def PollIntervalRunning : Nat := 10 * Second
def MaxWaitTime : Nat := 15 * Minute

/-! ## Regular expressions

The fragment of the `regexp` syntax that `domainRegex` uses: character classes,
concatenation and counted repetition (`?` is `{0,1}`, `+` is `{1,}`).  The
pattern is anchored at both ends, so `MatchString` asks whether the whole
input is matched. -/

/-- Abstract syntax of the regular expressions used by the scanner. -/
inductive Regex where
  /-- A character class given by inclusive ranges, e.g. `[a-zA-Z0-9]`. -/
  | cls (ranges : List (Char × Char))
  /-- Concatenation `r₁r₂`. -/
  | seq (r₁ r₂ : Regex)
  /-- Counted repetition `r{lo,hi}`, or `r{lo,}` when `hi` is `none`. -/
  | rep (r : Regex) (lo : Nat) (hi : Option Nat)

/-- Membership of a character in a class. -/
def inClass (ranges : List (Char × Char)) (c : Char) : Bool :=
  ranges.any fun p => decide (p.1.toNat ≤ c.toNat) && decide (c.toNat ≤ p.2.toNat)

/-- All inputs left after at most `extra` further iterations of `step`. -/
def repUpTo (step : List Char → List (List Char)) : Nat → List Char → List (List Char)
  | 0, s => [s]
  | extra + 1, s => s :: (step s).flatMap (repUpTo step extra)

/-- All inputs left after `lo` compulsory and at most `extra` further iterations. -/
def repRests (step : List Char → List (List Char)) (extra : Nat) :
    Nat → List Char → List (List Char)
  | 0, s => repUpTo step extra s
  | lo + 1, s => (step s).flatMap (repRests step extra lo)

/-- The matcher: `rests r s` lists every suffix of `s` that remains after `r`
has matched a prefix of `s`.  An unbounded repetition is tried for at most
`lo + |s|` rounds, which loses nothing (`rests_iff`). -/
def rests : Regex → List Char → List (List Char)
  | .cls ranges => fun s =>
    match s with
    | c :: t => if inClass ranges c then [t] else []
    | [] => []
  | .seq r₁ r₂ => fun s => (rests r₁ s).flatMap (rests r₂)
  | .rep r lo (some hi) => fun s =>
    if lo ≤ hi then repRests (rests r) (hi - lo) lo s else []
  | .rep r lo none => fun s => repRests (rests r) s.length lo s

/-- Go `(*Regexp).MatchString` for a pattern anchored with `^` and `$`. -/
def matchString (r : Regex) (s : String) : Bool :=
  (rests r s.data).any List.isEmpty

/-- The textbook language of a regular expression. -/
def Lang : Regex → List Char → Prop
  | .cls ranges, s => ∃ c, s = [c] ∧ inClass ranges c = true
  | .seq r₁ r₂, s => ∃ a b, s = a ++ b ∧ Lang r₁ a ∧ Lang r₂ b
  | .rep r lo hi, s => ∃ parts : List (List Char), s = parts.flatten ∧ lo ≤ parts.length ∧
      (∀ h, hi = some h → parts.length ≤ h) ∧ ∀ p ∈ parts, Lang r p

/-- The class `[a-zA-Z0-9]`. -/
def alnum : Regex := .cls [('a', 'z'), ('A', 'Z'), ('0', '9')]
/-- The class `[a-zA-Z0-9\-]`. -/
def alnumHyphen : Regex := .cls [('a', 'z'), ('A', 'Z'), ('0', '9'), ('-', '-')]
/-- The escaped literal `\.`. -/
def dot : Regex := .cls [('.', '.')]
/-- The class `[a-zA-Z]`. -/
def alpha : Regex := .cls [('a', 'z'), ('A', 'Z')]

/-- The group body `[a-zA-Z0-9]([a-zA-Z0-9\-]{0,61}[a-zA-Z0-9])?`. -/
def labelRegex : Regex :=
  .seq alnum (.rep (.seq (.rep alnumHyphen 0 (some 61)) alnum) 0 (some 1))

/-- Line 24: `^([a-zA-Z0-9]([a-zA-Z0-9\-]{0,61}[a-zA-Z0-9])?\.)+[a-zA-Z]{2,}$`. -/
def domainRegex : Regex :=
  .seq (.rep (.seq labelRegex dot) 1 none) (.rep alpha 2 none)

/-! ## `ValidateDomain` (lines 42-56) -/

def errEmptyDomain : String := "el dominio no puede estar vacío"
def errDomainTooLong : String := "el dominio excede la longitud máxima de 253 caracteres"
def errDomainFormat (domain : String) : String := "formato de dominio inválido: " ++ domain

/-- Go `ValidateDomain`: `none` is the `nil` error, `some msg` an error. -/
def ValidateDomain (domain : String) : Option String :=
  if domain = "" then
    some errEmptyDomain
  else if domain.utf8ByteSize > 253 then
    some errDomainTooLong
  else if !matchString domainRegex domain then
    some (errDomainFormat domain)
  else
    none

/-- A domain of 254 characters whose labels are all well formed. -/
def domain254 : String :=
  "aaaaaaaaaaaaaaaaaaaaaaaaaaaaaaaaaaaaaaaaaaaaaaaaaaaaaaaaaaaaaaa.aaaaaaaaaaaaaaaaaaaaaaaaaaaaaaaaaaaaaaaaaaaaaaaaaaaaaaaaaaaaaaa.aaaaaaaaaaaaaaaaaaaaaaaaaaaaaaaaaaaaaaaaaaaaaaaaaaaaaaaaaaaaaaa.aaaaaaaaaaaaaaaaaaaaaaaaaaaaaaaaaaaaaaaaaaaaaaaaaaaaaaaaaa.com"

/-- A domain of 253 characters whose final label has 251 letters. -/
def domainLongestFinalLabel : String :=
  "a.aaaaaaaaaaaaaaaaaaaaaaaaaaaaaaaaaaaaaaaaaaaaaaaaaaaaaaaaaaaaaaaaaaaaaaaaaaaaaaaaaaaaaaaaaaaaaaaaaaaaaaaaaaaaaaaaaaaaaaaaaaaaaaaaaaaaaaaaaaaaaaaaaaaaaaaaaaaaaaaaaaaaaaaaaaaaaaaaaaaaaaaaaaaaaaaaaaaaaaaaaaaaaaaaaaaaaaaaaaaaaaaaaaaaaaaaaaaaaaaaaaaaaaaaaaa"

/-- A domain whose final label has 64 letters. -/
def domainLongFinalLabel : String :=
  "a.aaaaaaaaaaaaaaaaaaaaaaaaaaaaaaaaaaaaaaaaaaaaaaaaaaaaaaaaaaaaaaaa"

/-! ## Host-label grammar, as the specification words it -/

/-- The dot-separated labels of a domain. -/
def labels (domain : String) : List (List Char) := domain.data.splitOn '.'

/-- ASCII letter. -/
def isLetter (c : Char) : Bool :=
  (decide ('a'.toNat ≤ c.toNat) && decide (c.toNat ≤ 'z'.toNat)) ||
  (decide ('A'.toNat ≤ c.toNat) && decide (c.toNat ≤ 'Z'.toNat))

/-- ASCII letter or digit. -/
def isLetterOrDigit (c : Char) : Bool :=
  isLetter c || (decide ('0'.toNat ≤ c.toNat) && decide (c.toNat ≤ '9'.toNat))

/-- ASCII letter, digit or hyphen. -/
def isLabelChar (c : Char) : Bool := isLetterOrDigit c || c == '-'

/-- Letters, digits and hyphens only, and no hyphen first or last. -/
def labelShape (l : List Char) : Bool :=
  l.all isLabelChar && l.head? != some '-' && l.getLast? != some '-'

/-- A label of 1 to 63 letters, digits or hyphens with no hyphen at either edge. -/
def isLabel (l : List Char) : Bool :=
  decide (1 ≤ l.length) && decide (l.length ≤ 63) && labelShape l

/-- A final label of at least 2 ASCII letters. -/
def isTLD (l : List Char) : Bool :=
  decide (2 ≤ l.length) && l.all isLetter

/-! ## Collaborators and traces

`RunAnalysis` talks to the HTTP client (`GetInfo`, `StartAnalysis`,
`CheckAnalysisStatus`), to the cache helpers of package `client`
(`CheckDomainInCache`, `LoadLocalCache`, `SaveToLocalCache`), to the clock and
to the cancellation context.  Their answers are parameters of the model. -/

/-- One interaction of a run with the outside world. -/
inductive Event where
  | getInfo
  | startAnalysis (domain : String)
  | checkDomainInCache (path domain : String)
  | loadLocalCache (path domain : String)
  /-- The `select` of the polling loop, armed with `time.After(interval)`. -/
  | wait (interval : Nat)
  | checkAnalysisStatus (domain : String)
  | saveToLocalCache (path : String) (host : Host)
  /-- Text written to standard output by `fmt.Printf`. -/
  | print (text : String)
deriving DecidableEq

/-- Answers of the collaborators consulted before polling.  A Go result pair
`(v, err)` is `Except.ok v` when `err == nil` and `Except.error msg` otherwise. -/
structure Collaborators where
  GetInfo : Except String Info
  StartAnalysis : String → Except String Host
  CheckDomainInCache : String → String → Except String Bool
  LoadLocalCache : String → String → Except String Host

/-- What the outside world does during one iteration of the polling loop. -/
structure PollStep where
  /-- `some msg` when `ctx.Done()` wins the `select`; `msg` is `ctx.Err().Error()`. -/
  cancelled : Option String := none
  /-- The reading `time.Since(startTime)` taken after the wait, in nanoseconds. -/
  elapsed : Nat := 0
  CheckAnalysisStatus : String → Except String Host
  /-- The error of `SaveToLocalCache`, `none` for `nil`. -/
  SaveToLocalCache : String → Host → Option String := fun _ _ => none

/-- Equality of Go result pairs is decidable. -/
instance decEqExcept {ε α : Type} [DecidableEq ε] [DecidableEq α] : DecidableEq (Except ε α)
  | .ok a, .ok b =>
    if h : a = b then isTrue (congrArg Except.ok h) else isFalse fun h' => h (Except.ok.inj h')
  | .error a, .error b =>
    if h : a = b then isTrue (congrArg Except.error h)
    else isFalse fun h' => h (Except.error.inj h')
  | .ok _, .error _ => isFalse fun h' => Except.noConfusion h'
  | .error _, .ok _ => isFalse fun h' => Except.noConfusion h'

/-- The outcome of a run: the interactions in program order, and the returned
pair `(host, err)`.  `result = none` means that the loop is still running
when the scripted iterations are used up. -/
structure Run where
  trace : List Event
  result : Option (Except String Host)
deriving DecidableEq

/-- Prefix a run with earlier events. -/
def Run.after (evs : List Event) (r : Run) : Run := ⟨evs ++ r.trace, r.result⟩

/-- Go `fmt.Sprintf("cache/%s.json", domain)`. -/
def cacheFilePath (domain : String) : String := "cache/" ++ domain ++ ".json"

/-! ## `reportProgress` (lines 149-156) -/

/-- The lines printed by `reportProgress`, one per endpoint with `Progress >= 0`. -/
def reportProgress (host : Host) : List Event :=
  (host.Endpoints.filter fun endpoint => decide (endpoint.Progress ≥ 0)).map fun endpoint =>
    Event.print ("  [" ++ endpoint.IPAddress ++ "] Progreso: " ++ toString endpoint.Progress ++
      "% - " ++ endpoint.StatusDetailsMessage ++ "\n")

/-! ## `pollAnalysisStatus` (lines 103-147) -/

def errCancelled (ctxErr : String) : String := "análisis cancelado: " ++ ctxErr
/-- The duration `MaxWaitTime` prints as `15m0s` under `%v`. -/
def errTimeout : String := "tiempo máximo de espera excedido (15m0s)"
def errCheckStatus (err : String) : String := "error al consultar estado: " ++ err
def errAnalysisFailed (statusMessage : String) : String :=
  "el análisis terminó con error: " ++ statusMessage
def warnCacheSave (saveErr : String) : String :=
  "Advertencia: no se pudo guardar en caché local: " ++ saveErr ++ "\n"

/-- Lines 120-127: the cache write after a successful status check. -/
def saveStatus (st : PollStep) (domain : String) (host : Host) : List Event :=
  Event.saveToLocalCache (cacheFilePath domain) host ::
    match st.SaveToLocalCache (cacheFilePath domain) host with
    | some saveErr => [Event.print (warnCacheSave saveErr)]
    | none => []

/-- The `for` loop of `pollAnalysisStatus`, one `PollStep` per iteration,
started with the current `pollInterval`. -/
def pollLoop (domain : String) : List PollStep → Nat → Run
  | [], _ => ⟨[], none⟩
  | st :: rest, pollInterval =>
    match st.cancelled with
    | some ctxErr => ⟨[.wait pollInterval], some (.error (errCancelled ctxErr))⟩
    | none =>
      if st.elapsed > MaxWaitTime then
        ⟨[.wait pollInterval], some (.error errTimeout)⟩
      else
        match st.CheckAnalysisStatus domain with
        | .error err =>
          ⟨[.wait pollInterval, .checkAnalysisStatus domain], some (.error (errCheckStatus err))⟩
        | .ok host =>
          let evs := [Event.wait pollInterval, Event.checkAnalysisStatus domain] ++
            saveStatus st domain host
          if host.Status = StatusReady then
            ⟨evs, some (.ok host)⟩
          else if host.Status = StatusError then
            ⟨evs, some (.error (errAnalysisFailed host.StatusMessage))⟩
          else if host.Status = StatusInProgress then
            (pollLoop domain rest PollIntervalRunning).after (evs ++ reportProgress host)
          else if host.Status = StatusDNS then
            (pollLoop domain rest PollIntervalInitial).after evs
          else
            (pollLoop domain rest pollInterval).after evs

/-- Go `(*Scanner).pollAnalysisStatus`. -/
def pollAnalysisStatus (script : List PollStep) (domain : String) : Run :=
  pollLoop domain script PollIntervalInitial

/-! ## `RunAnalysis` (lines 59-100) -/

def errValidation (err : String) : String := "validación fallida: " ++ err
def errInfo (err : String) : String :=
  "no se pudo verificar disponibilidad del servicio: " ++ err
def errCapacity (info : Info) : String :=
  "límite de análisis concurrentes alcanzado (" ++ toString info.CurrentAssessments ++ "/" ++
    toString info.MaxAssessments ++ ")"
def errStart (err : String) : String := "no se pudo iniciar el análisis: " ++ err
def errCacheCheck (err : String) : String := "error al verificar caché: " ++ err

/-- Go `(*Scanner).RunAnalysis`, against collaborators `w` and the polling
script `script`. -/
def RunAnalysis (w : Collaborators) (script : List PollStep) (domain : String) : Run :=
  match ValidateDomain domain with
  | some err => ⟨[], some (.error (errValidation err))⟩
  | none =>
    match w.GetInfo with
    | .error err => ⟨[.getInfo], some (.error (errInfo err))⟩
    | .ok info =>
      if info.CurrentAssessments ≥ info.MaxAssessments then
        ⟨[.getInfo], some (.error (errCapacity info))⟩
      else
        match w.StartAnalysis domain with
        | .error err => ⟨[.getInfo, .startAnalysis domain], some (.error (errStart err))⟩
        | .ok host =>
          if host.Status = StatusReady ∨ host.Status = StatusError then
            ⟨[.getInfo, .startAnalysis domain], some (.ok host)⟩
          else
            match w.CheckDomainInCache (cacheFilePath domain) domain with
            | .error err =>
              ⟨[.getInfo, .startAnalysis domain,
                .checkDomainInCache (cacheFilePath domain) domain],
                some (.error (errCacheCheck err))⟩
            | .ok inCache =>
              if inCache then
                match w.LoadLocalCache (cacheFilePath domain) domain with
                | .ok cached =>
                  ⟨[.getInfo, .startAnalysis domain,
                    .checkDomainInCache (cacheFilePath domain) domain,
                    .loadLocalCache (cacheFilePath domain) domain], some (.ok cached)⟩
                | .error _ =>
                  (pollAnalysisStatus script domain).after
                    [.getInfo, .startAnalysis domain,
                     .checkDomainInCache (cacheFilePath domain) domain,
                     .loadLocalCache (cacheFilePath domain) domain]
              else
                (pollAnalysisStatus script domain).after
                  [.getInfo, .startAnalysis domain,
                   .checkDomainInCache (cacheFilePath domain) domain]

/-- Whether an event is a remote status check. -/
def Event.isCheck : Event → Bool
  | .checkAnalysisStatus _ => true
  | _ => false

/-- Whether an event is a job start. -/
def Event.isStart : Event → Bool
  | .startAnalysis _ => true
  | _ => false

/-- Whether an event is a call to one of the cache helpers. -/
def Event.isCache : Event → Bool
  | .checkDomainInCache _ _ => true
  | .loadLocalCache _ _ => true
  | .saveToLocalCache _ _ => true
  | _ => false

/-- The intervals of the waits of a trace, in order. -/
def waits (evs : List Event) : List Nat :=
  evs.filterMap fun
    | .wait d => some d
    | _ => none

/-- The status checks of a trace, in order. -/
def checks (evs : List Event) : List Event := evs.filter Event.isCheck

/-! ## Conditions on the collaborators -/

/-- The terminal statuses `READY` and `ERROR`. -/
def Terminal (host : Host) : Prop := host.Status = StatusReady ∨ host.Status = StatusError

instance (host : Host) : Decidable (Terminal host) :=
  inferInstanceAs (Decidable (host.Status = StatusReady ∨ host.Status = StatusError))

/-- Validation and the capacity gate pass and `StartAnalysis` answers `host`. -/
def StartsWith (w : Collaborators) (domain : String) (host : Host) : Prop :=
  ValidateDomain domain = none ∧
  (∃ info, w.GetInfo = .ok info ∧ info.CurrentAssessments < info.MaxAssessments) ∧
  w.StartAnalysis domain = .ok host

/-- The pre-poll lookup finds no usable entry: `CheckDomainInCache` reports
false, or it reports true and `LoadLocalCache` fails. -/
def CacheMiss (w : Collaborators) (domain : String) : Prop :=
  w.CheckDomainInCache (cacheFilePath domain) domain = .ok false ∨
  (w.CheckDomainInCache (cacheFilePath domain) domain = .ok true ∧
    ∃ err, w.LoadLocalCache (cacheFilePath domain) domain = .error err)

/-- An iteration without cancellation and within the wait budget. -/
def Undisturbed (st : PollStep) : Prop := st.cancelled = none ∧ st.elapsed ≤ MaxWaitTime

instance (st : PollStep) : Decidable (Undisturbed st) :=
  inferInstanceAs (Decidable (st.cancelled = none ∧ st.elapsed ≤ MaxWaitTime))

/-- An undisturbed iteration whose status check succeeds with a status other
than `READY` and `ERROR`, so that the loop goes round again. -/
def KeepsPolling (domain : String) (st : PollStep) : Prop :=
  Undisturbed st ∧ ∃ host, st.CheckAnalysisStatus domain = .ok host ∧ ¬ Terminal host

/-- The events of `RunAnalysis` that precede polling when the cache lookup
reports no entry. -/
def prePollEvents (domain : String) : List Event :=
  [.getInfo, .startAnalysis domain, .checkDomainInCache (cacheFilePath domain) domain]

/-- The poll interval after a non-terminal status, lines 140-145: `IN_PROGRESS`
sets the running cadence, `DNS` the initial one, anything else keeps it. -/
def nextInterval (pollInterval : Nat) (host : Host) : Nat :=
  if host.Status = StatusInProgress then PollIntervalRunning
  else if host.Status = StatusDNS then PollIntervalInitial
  else pollInterval

/-- The events of one iteration that goes round again with answer `host`. -/
def stepEvents (st : PollStep) (domain : String) (pollInterval : Nat) (host : Host) :
    List Event :=
  [Event.wait pollInterval, Event.checkAnalysisStatus domain] ++ saveStatus st domain host ++
    (if host.Status = StatusInProgress then reportProgress host else [])

/-- Whether an event is a wait of the polling loop. -/
def Event.isWait : Event → Bool
  | .wait _ => true
  | _ => false

/-- The waits and status checks of a trace, in the order in which they happen. -/
def timeline (evs : List Event) : List Event :=
  evs.filter fun e => e.isWait || e.isCheck

/-- Whether an event is a cache write. -/
def Event.isSave : Event → Bool
  | .saveToLocalCache _ _ => true
  | _ => false

/-- The cache writes of a trace, in order. -/
def saves (evs : List Event) : List Event := evs.filter Event.isSave

/-- The status check of an iteration answers `IN_PROGRESS`. -/
def AnswersInProgress (domain : String) (st : PollStep) : Prop :=
  ∃ host, st.CheckAnalysisStatus domain = .ok host ∧ host.Status = StatusInProgress

/-- Every wait advances the clock by at least the poll interval in force:
the reading after the wait is at least the reading `before` it plus
`pollInterval`, where the interval follows the answers as in the loop. -/
def paced (domain : String) : List PollStep → Nat → Nat → Bool
  | [], _, _ => true
  | st :: rest, before, pollInterval =>
    decide (before + pollInterval ≤ st.elapsed) &&
      paced domain rest st.elapsed
        (match st.CheckAnalysisStatus domain with
         | .ok host => nextInterval pollInterval host
         | .error _ => pollInterval)

/-- Two iterations that differ at most in what `SaveToLocalCache` answers. -/
def SameButSaves (a b : PollStep) : Prop :=
  a.cancelled = b.cancelled ∧ a.elapsed = b.elapsed ∧
    a.CheckAnalysisStatus = b.CheckAnalysisStatus

/-- A status string outside `DNS`, `IN_PROGRESS`, `READY`, `ERROR`. -/
def UnknownStatus (host : Host) : Prop :=
  host.Status ≠ StatusDNS ∧ host.Status ≠ StatusInProgress ∧ host.Status ≠ StatusReady ∧
    host.Status ≠ StatusError

instance (host : Host) : Decidable (UnknownStatus host) :=
  inferInstanceAs (Decidable (host.Status ≠ StatusDNS ∧ host.Status ≠ StatusInProgress ∧
    host.Status ≠ StatusReady ∧ host.Status ≠ StatusError))

/-! ## Sample collaborators -/

def readyHost : Host := { Host := "example.com", Port := 443, Protocol := "http", Status := "READY" }
def errorHost : Host :=
  { Host := "example.com", Status := "ERROR", StatusMessage := "Unable to resolve domain name" }
def dnsHost : Host :=
  { Host := "example.com", Status := "DNS", StatusMessage := "Resolving domain names" }
def progressHost : Host :=
  { Host := "example.com", Status := "IN_PROGRESS",
    Endpoints := [{ IPAddress := "93.184.216.34", Progress := 40,
                    StatusDetailsMessage := "Testing handshakes" }] }

/-- A service with free capacity. -/
def idleInfo : Info := { Version := "2.3.1", MaxAssessments := 25, CurrentAssessments := 0 }
/-- A service at its quota. -/
def busyInfo : Info := { Version := "2.3.1", MaxAssessments := 25, CurrentAssessments := 25 }

/-- A job that starts in `DNS`, with no cache entry. -/
def freshWorld : Collaborators :=
  { GetInfo := .ok idleInfo
    StartAnalysis := fun _ => .ok dnsHost
    CheckDomainInCache := fun _ _ => .ok false
    LoadLocalCache := fun _ _ => .error "open cache/example.com.json: no such file or directory" }

/-- A job that starts in `DNS`, with an `IN_PROGRESS` snapshot in the cache. -/
def cachedWorld : Collaborators :=
  { freshWorld with
    CheckDomainInCache := fun _ _ => .ok true
    LoadLocalCache := fun _ _ => .ok progressHost }

/-- A cache entry that is found but cannot be loaded. -/
def corruptCacheWorld : Collaborators :=
  { freshWorld with
    CheckDomainInCache := fun _ _ => .ok true
    LoadLocalCache := fun _ _ => .error "unexpected end of JSON input" }

/-- A cache lookup that fails. -/
def brokenCacheWorld : Collaborators :=
  { freshWorld with CheckDomainInCache := fun _ _ => .error "permission denied" }

/-- A job that is already `READY` when started. -/
def readyWorld : Collaborators := { freshWorld with StartAnalysis := fun _ => .ok readyHost }
/-- A job that is already `ERROR` when started. -/
def errorWorld : Collaborators := { freshWorld with StartAnalysis := fun _ => .ok errorHost }
/-- A service at its quota. -/
def busyWorld : Collaborators := { freshWorld with GetInfo := .ok busyInfo }

/-- An undisturbed iteration answering `host`. -/
def answer (host : Host) : PollStep := { CheckAnalysisStatus := fun _ => .ok host }

/-- The responses `DNS, IN_PROGRESS, IN_PROGRESS, READY`. -/
def sampleScript : List PollStep :=
  [answer dnsHost, answer progressHost, answer progressHost, answer readyHost]

/-- The responses `DNS, ERROR`. -/
def failingScript : List PollStep := [answer dnsHost, answer errorHost]

/-- A host whose status string is none of the four known ones. -/
def queuedHost : Host := { Host := "example.com", Status := "QUEUED" }

/-- An iteration answering `host` whose cache write fails. -/
def answerUnsaved (host : Host) : PollStep :=
  { CheckAnalysisStatus := fun _ => .ok host
    SaveToLocalCache := fun _ _ => some "disk full" }

/-- The answers of `sampleScript`, every cache write failing. -/
def unsavedScript : List PollStep :=
  [answerUnsaved dnsHost, answerUnsaved progressHost, answerUnsaved progressHost,
   answerUnsaved readyHost]

/-- An iteration answering `IN_PROGRESS` when the clock reads `seconds`. -/
def progressAt (seconds : Nat) : PollStep :=
  { elapsed := seconds * Second, CheckAnalysisStatus := fun _ => .ok progressHost }

/-- The service answers `IN_PROGRESS` for ever and every wait lasts exactly the
poll interval: readings 5 s, 15 s, 25 s, ... for 91 iterations. -/
def steadyScript : List PollStep := (List.range 91).map fun i => progressAt (5 + 10 * i)

/-- A cancellation during the second wait. -/
def cancelledScript : List PollStep :=
  [answer dnsHost, { cancelled := some "context canceled",
                     CheckAnalysisStatus := fun _ => .ok readyHost },
   answer readyHost]

/-- A wait that ends after the budget, following one `IN_PROGRESS` answer. -/
def lateScript : List PollStep :=
  [answer progressHost, { elapsed := 901 * Second, CheckAnalysisStatus := fun _ => .ok readyHost },
   answer readyHost]

/-- The responses `QUEUED, READY`. -/
def queuedScript : List PollStep := [answer queuedHost, answer readyHost]

/-- The responses `IN_PROGRESS, READY`. -/
def progressScript : List PollStep := [answer progressHost, answer readyHost]

/-! ## Report formatter (`output/formatter.go`)

Every printing function returns the text it writes to standard output.  What
the text owes to the process environment (the local time zone, the current
time, the iteration order of a Go map) is read from a `Runtime`. -/

def ColorReset : String := "\x1b[0m"
def ColorRed : String := "\x1b[31m"
def ColorGreen : String := "\x1b[32m"
def ColorYellow : String := "\x1b[33m"
def ColorBlue : String := "\x1b[34m"
def ColorBold : String := "\x1b[1m"

/-- The escape character `\033` that opens every ANSI colour sequence. -/
def escapeChar : Char := Char.ofNat 27

/-- Go `output.Formatter`. -/
structure Formatter where
  useColors : Bool
deriving DecidableEq

/-- Go `NewFormatter`. -/
def NewFormatter (useColors : Bool) : Formatter := { useColors := useColors }

/-- The environment of the formatter. -/
structure Runtime where
  /-- Go `time.UnixMilli(ms).Format("2006-01-02 15:04:05")`. -/
  formatDateTime : Int → String
  /-- Go `time.UnixMilli(ms).Format("2006-01-02")`. -/
  formatDate : Int → String
  /-- Go `int(time.Until(time.UnixMilli(ms)).Hours() / 24)`. -/
  daysRemaining : Int → Int
  /-- The order in which `range` visits the entries of a map. -/
  rangeOrder : List (Int × String) → List (Int × String)

/-- Go `strings.HasPrefix`. -/
def HasPrefix (s p : String) : Bool := List.isPrefixOf p.data s.data

/-- Go `fmt.Println(s)`. -/
def Println (s : String) : String := s ++ "\n"

/-- Go `(*Formatter).colorize`, lines 361-366. -/
def Formatter.colorize (f : Formatter) (text color : String) : String :=
  if !f.useColors then text else color ++ text ++ ColorReset

/-- Go `(*Formatter).bold`, lines 368-373. -/
def Formatter.bold (f : Formatter) (text : String) : String :=
  if !f.useColors then text else ColorBold ++ text

/-- Go `(*Formatter).reset`, lines 375-380. -/
def Formatter.reset (f : Formatter) : String :=
  if !f.useColors then "" else ColorReset

/-- Go `(*Formatter).separator`: sixty box-drawing characters. -/
def Formatter.separator (_f : Formatter) : String := String.mk (List.replicate 60 '═')

/-- Go `(*Formatter).getGradeColor`, lines 348-359. -/
def Formatter.getGradeColor (_f : Formatter) (grade : String) : String :=
  if HasPrefix grade "A" then ColorGreen
  else if HasPrefix grade "B" then ColorYellow
  else if grade = "T" ∨ grade = "M" then ColorRed
  else ColorRed

/-- Go `(*Formatter).printHeader`, lines 62-78. -/
def Formatter.printHeader (f : Formatter) (rt : Runtime) (host : Host) : String :=
  Println f.separator ++
  f.bold "" ++ " REPORTE DE ANÁLISIS TLS - SSL Labs " ++ f.reset ++ "\n" ++
  Println f.separator ++
  "Dominio: " ++ f.colorize host.Host ColorBlue ++ "\n" ++
  "Puerto: " ++ toString host.Port ++ "\n" ++
  "Protocolo: " ++ host.Protocol ++ "\n" ++
  (if host.TestTime > 0 then
    "Fecha del análisis: " ++ rt.formatDateTime host.TestTime ++ "\n" else "") ++
  "Motor SSL Labs: " ++ host.EngineVersion ++ "\n" ++
  "Criterios de evaluación: " ++ host.CriteriaVersion ++ "\n" ++
  Println f.separator

/-- Go `(*Formatter).printEndpointSummary`, lines 80-105. -/
def Formatter.printEndpointSummary (f : Formatter) (endpoint : Endpoint) (index : Nat) :
    String :=
  "\n" ++ f.bold "" ++ " ENDPOINT #" ++ toString index ++ " " ++ f.reset ++ "\n" ++
  "IP: " ++ endpoint.IPAddress ++ "\n" ++
  (if endpoint.ServerName ≠ "" then
    "Nombre del servidor: " ++ endpoint.ServerName ++ "\n" else "") ++
  "Calificación: " ++ f.colorize endpoint.Grade (f.getGradeColor endpoint.Grade) ++ "\n" ++
  (if endpoint.GradeTrustIgnored ≠ "" ∧ endpoint.GradeTrustIgnored ≠ endpoint.Grade then
    "Calificación (ignorando confianza): " ++ endpoint.GradeTrustIgnored ++ "\n" else "") ++
  (if endpoint.HasWarnings then
    ColorYellow ++ "⚠ Este endpoint tiene advertencias que pueden afectar la calificación" ++
      ColorReset ++ "\n" else "") ++
  (if endpoint.IsExceptional then
    ColorGreen ++ "★ Configuración excepcional detectada" ++ ColorReset ++ "\n" else "") ++
  "Duración del análisis: " ++ toString endpoint.Duration ++ "ms\n"

/-- Go `(*Formatter).printEndpointError`, lines 55-60. -/
def Formatter.printEndpointError (_f : Formatter) (endpoint : Endpoint) : String :=
  "\n" ++ ColorRed ++ "Estado: " ++ endpoint.StatusMessage ++ ColorReset ++ "\n" ++
  (if endpoint.StatusDetailsMessage ≠ "" then
    "Detalle: " ++ endpoint.StatusDetailsMessage ++ "\n" else "")

/-- Go `(*Formatter).getProtocolStatus`, lines 121-138. -/
def Formatter.getProtocolStatus (f : Formatter) (proto : Protocol) : String :=
  if proto.Q = some 0 then f.colorize "INSEGURO" ColorRed
  else if proto.Name = "SSL" then f.colorize "INSEGURO (obsoleto)" ColorRed
  else if proto.Name = "TLS" ∧ (proto.Version = "1.0" ∨ proto.Version = "1.1") then
    f.colorize "DEPRECADO" ColorYellow
  else f.colorize "OK" ColorGreen

/-- Go `(*Formatter).printProtocols`, lines 107-119. -/
def Formatter.printProtocols (f : Formatter) (protocols : List Protocol) : String :=
  "\n" ++ f.bold "" ++ " Protocolos Soportados " ++ f.reset ++ "\n" ++
  (if protocols.length = 0 then
    Println "  No se encontraron protocolos."
  else
    String.join (protocols.map fun proto =>
      "  • " ++ proto.Name ++ " " ++ proto.Version ++ ": " ++ f.getProtocolStatus proto ++ "\n"))

/-- Go `fmt.Sprintf("%s (fuerza: %d bits)", suite.Name, suite.CipherStrength)`. -/
def suiteLine (suite : Suite) : String :=
  suite.Name ++ " (fuerza: " ++ toString suite.CipherStrength ++ " bits)"

/-- The slice `weakSuites` built by the loop of lines 155-164. -/
def weakSuites (suites : Suites) : List String :=
  suites.List.filterMap fun suite =>
    if suite.Q = some 0 then some (suiteLine suite) else none

/-- The slice `strongSuites` built by the loop of lines 155-164. -/
def strongSuites (suites : Suites) : List String :=
  suites.List.filterMap fun suite =>
    if suite.Q = some 0 then none
    else if suite.CipherStrength ≥ 128 then some (suiteLine suite) else none

/-- Go `(*Formatter).printCipherSuites`, lines 140-189. -/
def Formatter.printCipherSuites (f : Formatter) (suites : Option Suites) : String :=
  "\n" ++ f.bold "" ++ " Cipher Suites " ++ f.reset ++ "\n" ++
  match suites with
  | none => Println "  No se encontraron cipher suites."
  | some suites =>
    if suites.List.length = 0 then Println "  No se encontraron cipher suites."
    else
      (if suites.Preference then
        Println "  El servidor selecciona activamente las cipher suites." else "") ++
      "  Total de suites: " ++ toString suites.List.length ++ "\n" ++
      (if (weakSuites suites).length > 0 then
        "\n  " ++ ColorRed ++ "Cifrados Débiles Detectados:" ++ ColorReset ++ "\n" ++
          String.join ((weakSuites suites).map fun suite => "    ✗ " ++ suite ++ "\n")
       else "") ++
      (if (strongSuites suites).length > 0 then
        "\n  Cifrados Fuertes (mostrando hasta 5):\n" ++
          String.join
            (((strongSuites suites).take
                (if (strongSuites suites).length < 5 then (strongSuites suites).length else 5)).map
              fun suite => "    ✓ " ++ suite ++ "\n") ++
          (if (strongSuites suites).length > 5 then
            "    ... y " ++ toString ((strongSuites suites).length - 5) ++ " más\n" else "")
       else "")

/-- The table `vulnerabilities` of lines 195-206: name, flag, severity. -/
def vulnerabilities (details : EndpointDetails) : List (String × Bool × String) :=
  [("Heartbleed (CVE-2014-0160)", details.Heartbleed, "CRÍTICA"),
   ("POODLE (SSLv3)", details.Poodle, "ALTA"),
   ("BEAST", details.VulnBeast, "MEDIA"),
   ("FREAK", details.Freak, "ALTA"),
   ("Logjam", details.Logjam, "ALTA"),
   ("Soporta RC4", details.SupportsRC4, "MEDIA")]

/-- The final value of the flag `foundVulnerabilities`, lines 208-228. -/
def foundVulnerabilities (details : EndpointDetails) : Bool :=
  (vulnerabilities details).any (fun vuln => vuln.2.1) ||
    decide (details.OpenSSLCcs ≥ 2) || decide (details.PoodleTLS = 2)

/-- The value of `fsStatus`, lines 239-246. -/
def Formatter.fsStatus (f : Formatter) (details : EndpointDetails) : String :=
  if details.ForwardSecrecy ≥ 4 then f.colorize "Completo (todos los clientes)" ColorGreen
  else if details.ForwardSecrecy ≥ 2 then f.colorize "Parcial (clientes modernos)" ColorYellow
  else if details.ForwardSecrecy ≥ 1 then f.colorize "Limitado" ColorYellow
  else "No soportado"

/-- The value of `hstsStatus`, lines 251-257. -/
def Formatter.hstsStatus (f : Formatter) (policy : HstsPolicy) : String :=
  if policy.Status = "present" then
    f.colorize "Habilitado" ColorGreen ++ (if policy.Preload then " (con preload)" else "")
  else "No configurado"

/-- Go `(*Formatter).printVulnerabilities`, lines 192-272. -/
def Formatter.printVulnerabilities (f : Formatter) (details : EndpointDetails) : String :=
  "\n" ++ f.bold "" ++ " Vulnerabilidades Conocidas " ++ f.reset ++ "\n" ++
  String.join (((vulnerabilities details).filter fun vuln => vuln.2.1).map fun vuln =>
    "  " ++ ColorRed ++ "✗ " ++ vuln.1 ++ " - Severidad: " ++ vuln.2.2 ++ ColorReset ++ "\n") ++
  (if details.OpenSSLCcs ≥ 2 then
    "  " ++ ColorRed ++ "✗ OpenSSL CCS (CVE-2014-0224) - Severidad: CRÍTICA" ++ ColorReset ++
      "\n" else "") ++
  (if details.PoodleTLS = 2 then
    "  " ++ ColorRed ++ "✗ POODLE TLS - Severidad: ALTA" ++ ColorReset ++ "\n" else "") ++
  (if !foundVulnerabilities details then
    "  " ++ ColorGreen ++ "✓ No se detectaron vulnerabilidades conocidas" ++ ColorReset ++
      "\n" else "") ++
  "\n" ++ f.bold "" ++ " Características de Seguridad " ++ f.reset ++ "\n" ++
  "  Forward Secrecy: " ++ f.fsStatus details ++ "\n" ++
  (match details.HstsPolicy with
   | some policy => "  HSTS: " ++ f.hstsStatus policy ++ "\n"
   | none => "") ++
  "  OCSP Stapling: " ++
    (if details.OcspStapling then f.colorize "Sí" ColorGreen else f.colorize "No" ColorYellow) ++
    "\n" ++
  (if details.FallbackScsv then
    "  TLS Fallback SCSV: " ++ f.colorize "Soportado" ColorGreen ++ "\n" else "")

/-- The map `issueMap` of lines 329-339. -/
def issueMap : List (Int × String) :=
  [(1, "Sin cadena de confianza"), (2, "Certificado aún no válido"),
   (4, "Certificado expirado"), (8, "Nombre de host no coincide"),
   (16, "Certificado revocado"), (32, "Common name incorrecto"),
   (64, "Certificado autofirmado"), (128, "Certificado en lista negra"),
   (256, "Firma insegura")]

/-- Go `(*Formatter).printCertIssues`, lines 328-346. -/
def Formatter.printCertIssues (_f : Formatter) (rt : Runtime) (issues : Int) : String :=
  String.join (((rt.rangeOrder issueMap).filter fun entry =>
    decide (Int.land issues entry.1 ≠ 0)).map fun entry => "    ✗ " ++ entry.2 ++ "\n")

/-- The expiry warning of lines 305-311. -/
def expiryWarning (daysRemaining : Int) : String :=
  if daysRemaining < 0 then
    "  " ++ ColorRed ++ "⚠ CERTIFICADO EXPIRADO" ++ ColorReset ++ "\n"
  else if daysRemaining < 30 then
    "  " ++ ColorYellow ++ "⚠ El certificado expira en " ++ toString daysRemaining ++ " días" ++
      ColorReset ++ "\n"
  else ""

/-- Go `(*Formatter).printCertificateInfo`, lines 274-326. -/
def Formatter.printCertificateInfo (f : Formatter) (rt : Runtime) (cert : Option Cert) :
    String :=
  match cert with
  | none => ""
  | some cert =>
    if cert.Subject = "" ∧ cert.IssuerLabel = "" ∧ cert.SigAlg = "" then ""
    else
      "\n" ++ f.bold "" ++ " Información del Certificado " ++ f.reset ++ "\n" ++
      (if cert.Subject ≠ "" then "  Sujeto: " ++ cert.Subject ++ "\n" else "") ++
      (if cert.IssuerLabel ≠ "" then "  Emisor: " ++ cert.IssuerLabel ++ "\n" else "") ++
      (if cert.SigAlg ≠ "" then "  Algoritmo de firma: " ++ cert.SigAlg ++ "\n" else "") ++
      (if cert.NotBefore > 0 then
        "  Válido desde: " ++ rt.formatDate cert.NotBefore ++ "\n" else "") ++
      (if cert.NotAfter > 0 then
        "  Válido hasta: " ++ rt.formatDate cert.NotAfter ++ "\n" ++
          expiryWarning (rt.daysRemaining cert.NotAfter) else "") ++
      (if cert.AltNames.length > 0 then
        "  Nombres alternativos: " ++
          ", ".intercalate (cert.AltNames.take (min 5 cert.AltNames.length)) ++ "\n" ++
          (if cert.AltNames.length > 5 then
            "    ... y " ++ toString (cert.AltNames.length - 5) ++ " más\n" else "")
       else "") ++
      (if cert.Issues > 0 then
        "\n  " ++ ColorRed ++ "Problemas detectados en el certificado:" ++ ColorReset ++ "\n" ++
          f.printCertIssues rt cert.Issues
       else "")

/-- The body of the loop of `PrintReport`, lines 35-51, for the endpoint at
position `i` (counted from 0). -/
def Formatter.printEndpoint (f : Formatter) (rt : Runtime) (i : Nat) (endpoint : Endpoint) :
    String :=
  f.printEndpointSummary endpoint (i + 1) ++
  (if endpoint.StatusMessage ≠ "Ready" then
    f.printEndpointError endpoint ++ Println f.separator
  else
    (match endpoint.Details with
     | some details =>
       f.printProtocols details.Protocols ++ f.printCipherSuites details.Suites ++
         f.printVulnerabilities details ++ f.printCertificateInfo rt details.Cert
     | none => "") ++
    Println f.separator)

/-- Go `(*Formatter).PrintReport`, lines 31-53: the whole report text. -/
def Formatter.PrintReport (f : Formatter) (rt : Runtime) (host : Host) : String :=
  f.printHeader rt host ++
    String.join (host.Endpoints.enum.map fun p => f.printEndpoint rt p.1 p.2)

/-- Absence of the escape character from a text. -/
def noEscape (s : String) : Bool := !s.data.contains escapeChar

/-- The text fields of an endpoint contain no escape character. -/
def cleanEndpoint (endpoint : Endpoint) : Bool :=
  noEscape endpoint.IPAddress && noEscape endpoint.ServerName &&
  noEscape endpoint.StatusMessage && noEscape endpoint.StatusDetails &&
  noEscape endpoint.StatusDetailsMessage && noEscape endpoint.Grade &&
  noEscape endpoint.GradeTrustIgnored &&
  (match endpoint.Details with
   | none => true
   | some details =>
     noEscape details.ServerSignature && noEscape details.NpnProtocols &&
     noEscape details.HTTPForwarding && details.DhPrimes.all noEscape &&
     details.Protocols.all (fun proto => noEscape proto.Name && noEscape proto.Version) &&
     (match details.Key with
      | none => true
      | some key => noEscape key.Alg) &&
     (match details.Suites with
      | none => true
      | some suites => suites.List.all fun suite => noEscape suite.Name) &&
     (match details.HstsPolicy with
      | none => true
      | some policy =>
        noEscape policy.Header && noEscape policy.Status && noEscape policy.Error) &&
     (match details.Chain with
      | none => true
      | some chain => chain.Certs.all fun c =>
        noEscape c.Subject && noEscape c.Label && noEscape c.IssuerSubject &&
        noEscape c.IssuerLabel && noEscape c.SigAlg && noEscape c.KeyAlg && noEscape c.Raw) &&
     (match details.Cert with
      | none => true
      | some cert =>
        noEscape cert.Subject && cert.CommonNames.all noEscape &&
        cert.AltNames.all noEscape && noEscape cert.IssuerSubject && noEscape cert.SigAlg &&
        noEscape cert.IssuerLabel && cert.CrlURIs.all noEscape &&
        cert.OcspURIs.all noEscape && noEscape cert.ValidationType))

/-- None of the text fields of a host contains an escape character. -/
def cleanHost (host : Host) : Bool :=
  noEscape host.Host && noEscape host.Protocol && noEscape host.Status &&
  noEscape host.StatusMessage && noEscape host.EngineVersion &&
  noEscape host.CriteriaVersion && host.CertHostnames.all noEscape &&
  host.Endpoints.all cleanEndpoint

/-- A finished assessment whose only endpoint could not be reached. -/
def unreachableHost : Host :=
  { Host := "example.com", Port := 443, Protocol := "http", Status := "READY",
    EngineVersion := "2.3.1", CriteriaVersion := "2009q",
    Endpoints := [{ IPAddress := "93.184.216.34",
                    StatusMessage := "Unable to connect to the server" }] }

/-- A finished assessment of an endpoint without any known vulnerability. -/
def soundHost : Host :=
  { Host := "example.com", Port := 443, Protocol := "http", Status := "READY",
    EngineVersion := "2.3.1", CriteriaVersion := "2009q",
    Endpoints := [{ IPAddress := "93.184.216.34", StatusMessage := "Ready", Grade := "A",
                    Details := some { ForwardSecrecy := 4, OcspStapling := true } }] }

/-- A runtime for reports that print no date and no certificate issue. -/
def plainRuntime : Runtime :=
  { formatDateTime := fun _ => ""
    formatDate := fun _ => ""
    daysRemaining := fun _ => 0
    rangeOrder := fun entries => entries }

/-! ## The matcher computes the language -/

theorem mem_repUpTo {step : List Char → List (List Char)} {L : List Char → Prop}
    (hstep : ∀ s t, t ∈ step s ↔ ∃ p, s = p ++ t ∧ L p) (n : Nat) (s t : List Char) :
    t ∈ repUpTo step n s ↔
      ∃ parts : List (List Char), s = parts.flatten ++ t ∧ parts.length ≤ n ∧
        ∀ p ∈ parts, L p := by
  induction n generalizing s with
  | zero =>
    simp only [repUpTo, List.mem_singleton]
    constructor
    · rintro rfl
      exact ⟨[], by simp⟩
    · rintro ⟨parts, hs, hlen, -⟩
      have : parts = [] := List.length_eq_zero.mp (Nat.le_zero.mp hlen)
      subst this
      simpa using hs.symm
  | succ n ih =>
    simp only [repUpTo, List.mem_cons, List.mem_flatMap]
    constructor
    · rintro (rfl | ⟨u, hu, ht⟩)
      · exact ⟨[], by simp⟩
      · obtain ⟨p, rfl, hp⟩ := (hstep s u).mp hu
        obtain ⟨parts, rfl, hlen, hall⟩ := (ih u).mp ht
        refine ⟨p :: parts, by simp, by simpa using hlen, ?_⟩
        intro q hq
        rcases List.mem_cons.mp hq with rfl | hq
        · exact hp
        · exact hall q hq
    · rintro ⟨parts, hs, hlen, hall⟩
      cases parts with
      | nil => left; simpa using hs.symm
      | cons p ps =>
        right
        refine ⟨ps.flatten ++ t, (hstep _ _).mpr ⟨p, by simpa using hs, hall p (by simp)⟩, ?_⟩
        exact (ih _).mpr ⟨ps, rfl, by simpa using hlen, fun q hq => hall q (by simp [hq])⟩

theorem mem_repRests {step : List Char → List (List Char)} {L : List Char → Prop}
    (hstep : ∀ s t, t ∈ step s ↔ ∃ p, s = p ++ t ∧ L p) (extra lo : Nat) (s t : List Char) :
    t ∈ repRests step extra lo s ↔
      ∃ parts : List (List Char), s = parts.flatten ++ t ∧ lo ≤ parts.length ∧
        parts.length ≤ lo + extra ∧ ∀ p ∈ parts, L p := by
  induction lo generalizing s with
  | zero =>
    simp only [repRests, mem_repUpTo hstep, Nat.zero_le, Nat.zero_add, true_and]
  | succ lo ih =>
    simp only [repRests, List.mem_flatMap]
    constructor
    · rintro ⟨u, hu, ht⟩
      obtain ⟨p, rfl, hp⟩ := (hstep s u).mp hu
      obtain ⟨parts, rfl, hlo, hhi, hall⟩ := (ih u).mp ht
      refine ⟨p :: parts, by simp, by simpa using hlo, by simp; omega, ?_⟩
      intro q hq
      rcases List.mem_cons.mp hq with rfl | hq
      · exact hp
      · exact hall q hq
    · rintro ⟨parts, hs, hlo, hhi, hall⟩
      cases parts with
      | nil => simp at hlo
      | cons p ps =>
        refine ⟨ps.flatten ++ t, (hstep _ _).mpr ⟨p, by simpa using hs, hall p (by simp)⟩, ?_⟩
        refine (ih _).mpr ⟨ps, rfl, by simpa using hlo, ?_, fun q hq => hall q (by simp [hq])⟩
        simp at hhi
        omega

/-- Dropping the empty rounds of a repetition keeps what it matches. -/
theorem length_filter_le_length_flatten (parts : List (List Char)) :
    (parts.filter fun p => !p.isEmpty).length ≤ parts.flatten.length := by
  induction parts with
  | nil => simp
  | cons p ps ih =>
    cases p with
    | nil => simpa [List.filter] using ih
    | cons c cs =>
      simp [List.filter] at ih ⊢
      omega

theorem flatten_filter_nonempty (parts : List (List Char)) :
    (parts.filter fun p => !p.isEmpty).flatten = parts.flatten := by
  induction parts with
  | nil => simp
  | cons p ps ih =>
    cases p with
    | nil => simpa [List.filter] using ih
    | cons c cs => simp [List.filter, ih]

/-- Every match of an unbounded repetition is also one with few rounds. -/
theorem trim_rounds {L : List Char → Prop} (lo : Nat) (parts : List (List Char))
    (hlo : lo ≤ parts.length) (hall : ∀ p ∈ parts, L p) :
    ∃ parts' : List (List Char), parts'.flatten = parts.flatten ∧ lo ≤ parts'.length ∧
      parts'.length ≤ lo + parts.flatten.length ∧ ∀ p ∈ parts', L p := by
  refine ⟨parts.take lo ++ (parts.drop lo).filter (fun p => !p.isEmpty), ?_, ?_, ?_, ?_⟩
  · rw [List.flatten_append, flatten_filter_nonempty, ← List.flatten_append,
      List.take_append_drop]
  · simp [List.length_take, Nat.min_eq_left hlo]
  · have h1 := length_filter_le_length_flatten (parts.drop lo)
    have h2 : (parts.drop lo).flatten.length ≤ parts.flatten.length := by
      conv_rhs => rw [← List.take_append_drop lo parts, List.flatten_append, List.length_append]
      omega
    simp only [List.length_append, List.length_take]
    omega
  · intro p hp
    rcases List.mem_append.mp hp with hp | hp
    · exact hall p (List.mem_of_mem_take hp)
    · exact hall p (List.mem_of_mem_drop (List.mem_filter.mp hp).1)

/-- The matcher is sound and complete for the language. -/
theorem rests_iff (r : Regex) : ∀ s t : List Char,
    t ∈ rests r s ↔ ∃ p, s = p ++ t ∧ Lang r p := by
  induction r with
  | cls ranges =>
    intro s t
    cases s with
    | nil => simp [rests, Lang]
    | cons c cs =>
      simp only [rests, Lang]
      constructor
      · intro h
        by_cases hc : inClass ranges c = true
        · rw [if_pos hc] at h
          exact ⟨[c], by simp [List.mem_singleton.mp h], c, rfl, hc⟩
        · rw [if_neg hc] at h
          simp at h
      · rintro ⟨p, hp, c', rfl, hc'⟩
        simp at hp
        obtain ⟨rfl, rfl⟩ := hp
        simp [hc']
  | seq r₁ r₂ ih₁ ih₂ =>
    intro s t
    simp only [rests, Lang, List.mem_flatMap]
    constructor
    · rintro ⟨u, hu, ht⟩
      obtain ⟨a, rfl, ha⟩ := (ih₁ s u).mp hu
      obtain ⟨b, rfl, hb⟩ := (ih₂ u t).mp ht
      exact ⟨a ++ b, by simp, a, b, rfl, ha, hb⟩
    · rintro ⟨p, rfl, a, b, rfl, ha, hb⟩
      exact ⟨b ++ t, (ih₁ _ _).mpr ⟨a, by simp, ha⟩, (ih₂ _ _).mpr ⟨b, rfl, hb⟩⟩
  | rep r lo hi ih =>
    intro s t
    cases hi with
    | some hi =>
      simp only [rests, Lang]
      by_cases hle : lo ≤ hi
      · rw [if_pos hle, mem_repRests ih]
        constructor
        · rintro ⟨parts, rfl, h1, h2, h3⟩
          refine ⟨parts.flatten, rfl, parts, rfl, h1, ?_, h3⟩
          intro h hh
          cases hh
          omega
        · rintro ⟨p, rfl, parts, rfl, h1, h2, h3⟩
          exact ⟨parts, rfl, h1, by have := h2 hi rfl; omega, h3⟩
      · rw [if_neg hle]
        simp only [List.not_mem_nil, false_iff]
        rintro ⟨p, -, parts, -, h1, h2, -⟩
        exact hle (le_trans h1 (h2 hi rfl))
    | none =>
      simp only [rests, Lang]
      rw [mem_repRests ih]
      constructor
      · rintro ⟨parts, rfl, h1, -, h3⟩
        exact ⟨parts.flatten, rfl, parts, rfl, h1, by simp, h3⟩
      · rintro ⟨p, rfl, parts, rfl, h1, -, h3⟩
        obtain ⟨parts', hf, h1', h2', h3'⟩ := trim_rounds lo parts h1 h3
        refine ⟨parts', by rw [hf], h1', ?_, h3'⟩
        simp only [List.length_append]
        omega

/-- `MatchString` decides membership in the language of the pattern. -/
theorem matchString_iff (r : Regex) (s : String) : matchString r s = true ↔ Lang r s.data := by
  unfold matchString
  rw [List.any_eq_true]
  constructor
  · rintro ⟨t, ht, hnil⟩
    have : t = [] := by simpa using hnil
    subst this
    obtain ⟨p, hp, hL⟩ := (rests_iff r _ _).mp ht
    simpa [hp] using hL
  · intro h
    exact ⟨[], (rests_iff r _ _).mpr ⟨s.data, by simp, h⟩, rfl⟩

/-! ## Character classes -/

theorem inClass_alnum (c : Char) :
    inClass [('a', 'z'), ('A', 'Z'), ('0', '9')] c = isLetterOrDigit c := by
  simp [inClass, isLetterOrDigit, isLetter, Bool.or_assoc]

theorem inClass_alpha (c : Char) : inClass [('a', 'z'), ('A', 'Z')] c = isLetter c := by
  simp [inClass, isLetter]

theorem char_eq_of_toNat_eq {c d : Char} (h : c.toNat = d.toNat) : c = d :=
  Char.ext (UInt32.ext h)

theorem inClass_single (d c : Char) : inClass [(d, d)] c = true ↔ c = d := by
  simp only [inClass, List.any, Bool.or_false, Bool.and_eq_true, decide_eq_true_eq]
  constructor
  · rintro ⟨h1, h2⟩
    exact char_eq_of_toNat_eq (Nat.le_antisymm h2 h1)
  · rintro rfl
    exact ⟨le_refl _, le_refl _⟩

theorem inClass_alnumHyphen (c : Char) :
    inClass [('a', 'z'), ('A', 'Z'), ('0', '9'), ('-', '-')] c = isLabelChar c := by
  have h1 : inClass [('a', 'z'), ('A', 'Z'), ('0', '9'), ('-', '-')] c =
      (inClass [('a', 'z'), ('A', 'Z'), ('0', '9')] c || inClass [('-', '-')] c) := by
    simp [inClass, Bool.or_assoc]
  rw [h1, inClass_alnum, isLabelChar]
  congr 1
  rw [Bool.eq_iff_iff, inClass_single]
  simp

theorem isLetterOrDigit_bounds {c : Char} (h : isLetterOrDigit c = true) :
    (97 ≤ c.toNat ∧ c.toNat ≤ 122) ∨ (65 ≤ c.toNat ∧ c.toNat ≤ 90) ∨
      (48 ≤ c.toNat ∧ c.toNat ≤ 57) := by
  have ha : 'a'.toNat = 97 := rfl
  have hz : 'z'.toNat = 122 := rfl
  have hA : 'A'.toNat = 65 := rfl
  have hZ : 'Z'.toNat = 90 := rfl
  have h0 : '0'.toNat = 48 := rfl
  have h9 : '9'.toNat = 57 := rfl
  simp only [isLetterOrDigit, isLetter, Bool.or_eq_true, Bool.and_eq_true, decide_eq_true_eq,
    ha, hz, hA, hZ, h0, h9] at h
  omega

theorem isLetter_imp_isLetterOrDigit {c : Char} (h : isLetter c = true) :
    isLetterOrDigit c = true := by
  simp [isLetterOrDigit, h]

theorem isLetterOrDigit_imp_isLabelChar {c : Char} (h : isLetterOrDigit c = true) :
    isLabelChar c = true := by
  simp [isLabelChar, h]

theorem isLetterOrDigit_ne_hyphen {c : Char} (h : isLetterOrDigit c = true) : c ≠ '-' := by
  rintro rfl
  revert h
  decide

theorem isLetterOrDigit_of_labelChar {c : Char} (h : isLabelChar c = true) (hc : c ≠ '-') :
    isLetterOrDigit c = true := by
  simp only [isLabelChar, Bool.or_eq_true, beq_iff_eq] at h
  rcases h with h | h
  · exact h
  · exact absurd h hc

theorem isLabelChar_ne_dot {c : Char} (h : isLabelChar c = true) : c ≠ '.' := by
  rintro rfl
  revert h
  decide

theorem isLabelChar_ascii {c : Char} (h : isLabelChar c = true) : c.toNat ≤ 127 := by
  by_cases hc : c = '-'
  · subst hc
    decide
  · have := isLetterOrDigit_bounds (isLetterOrDigit_of_labelChar h hc)
    omega

theorem utf8Size_ascii (c : Char) (h : c.toNat ≤ 127) : c.utf8Size = 1 := by
  unfold Char.utf8Size
  have hle : c.val ≤ UInt32.ofNatCore 127 (by decide) := by
    show c.val.toNat ≤ 127
    exact h
  rw [if_pos hle]

theorem length_le_utf8Len (l : List Char) : l.length ≤ String.utf8Len l := by
  induction l with
  | nil => simp
  | cons c cs ih =>
    have := Char.utf8Size_pos c
    simp only [List.length_cons, String.utf8Len_cons]
    omega

theorem utf8Len_ascii (l : List Char) (h : ∀ c ∈ l, c.toNat ≤ 127) :
    String.utf8Len l = l.length := by
  induction l with
  | nil => simp
  | cons c cs ih =>
    simp only [List.length_cons, String.utf8Len_cons]
    rw [ih fun d hd => h d (List.mem_cons_of_mem _ hd), utf8Size_ascii c (h c (by simp))]

theorem utf8ByteSize_eq (s : String) : s.utf8ByteSize = String.utf8Len s.data := by
  cases s
  rfl

/-! ## The language of `domainRegex` -/

/-- A repetition of a character class matches the strings over the class whose
length is within the bounds. -/
theorem lang_rep_cls (ranges : List (Char × Char)) (lo : Nat) (hi : Option Nat)
    (s : List Char) :
    Lang (.rep (.cls ranges) lo hi) s ↔
      lo ≤ s.length ∧ (∀ h, hi = some h → s.length ≤ h) ∧ ∀ c ∈ s, inClass ranges c = true := by
  have key : ∀ parts : List (List Char), (∀ p ∈ parts, Lang (.cls ranges) p) →
      parts.flatten.length = parts.length ∧ ∀ c ∈ parts.flatten, inClass ranges c = true := by
    intro parts
    induction parts with
    | nil => simp
    | cons p ps ih =>
      intro hall
      obtain ⟨c, rfl, hc⟩ := hall p (by simp)
      obtain ⟨h1, h2⟩ := ih fun q hq => hall q (List.mem_cons_of_mem _ hq)
      refine ⟨by simp [h1], ?_⟩
      intro d hd
      simp only [List.flatten_cons, List.singleton_append, List.mem_cons] at hd
      rcases hd with rfl | hd
      · exact hc
      · exact h2 d hd
  constructor
  · rintro ⟨parts, rfl, h1, h2, h3⟩
    obtain ⟨k1, k2⟩ := key parts h3
    exact ⟨by omega, fun h hh => by have := h2 h hh; omega, k2⟩
  · rintro ⟨h1, h2, h3⟩
    refine ⟨s.map fun c => [c], ?_, by simpa using h1, by simpa using h2, ?_⟩
    · clear h1 h2 h3
      induction s with
      | nil => rfl
      | cons c cs ih => simp [← ih]
    · intro p hp
      obtain ⟨c, hc, rfl⟩ := List.mem_map.mp hp
      exact ⟨c, rfl, h3 c hc⟩

/-- An optional group matches the empty string or the group. -/
theorem lang_opt (r : Regex) (s : List Char) :
    Lang (.rep r 0 (some 1)) s ↔ s = [] ∨ Lang r s := by
  constructor
  · rintro ⟨parts, rfl, -, h2, h3⟩
    have hlen := h2 1 rfl
    match parts, hlen, h3 with
    | [], _, _ => left; rfl
    | [p], _, h3 => right; simpa using h3 p (by simp)
  · rintro (rfl | h)
    · exact ⟨[], rfl, le_refl _, by simp, by simp⟩
    · exact ⟨[s], by simp, by simp, by simp, by simpa using h⟩

/-- The group body matches exactly the labels. -/
theorem lang_labelRegex (l : List Char) : Lang labelRegex l ↔ isLabel l = true := by
  have hinner : ∀ b : List Char,
      Lang (.seq (.rep alnumHyphen 0 (some 61)) alnum) b ↔
        ∃ m cl, b = m ++ [cl] ∧ m.length ≤ 61 ∧ (∀ c ∈ m, isLabelChar c = true) ∧
          isLetterOrDigit cl = true := by
    intro b
    simp only [Lang, alnumHyphen, alnum]
    constructor
    · rintro ⟨m, e, rfl, hm, cl, rfl, hcl⟩
      obtain ⟨-, h2, h3⟩ := (lang_rep_cls _ _ _ _).mp hm
      refine ⟨m, cl, rfl, h2 61 rfl, ?_, by rwa [inClass_alnum] at hcl⟩
      intro c hc
      have := h3 c hc
      rwa [inClass_alnumHyphen] at this
    · rintro ⟨m, cl, rfl, h1, h2, h3⟩
      refine ⟨m, [cl], rfl, ?_, cl, rfl, by rwa [inClass_alnum]⟩
      refine (lang_rep_cls _ _ _ _).mpr ⟨Nat.zero_le _, ?_, ?_⟩
      · intro h hh
        cases hh
        exact h1
      · intro c hc
        rw [inClass_alnumHyphen]
        exact h2 c hc
  have houter : Lang labelRegex l ↔
      ∃ c0 b, l = c0 :: b ∧ isLetterOrDigit c0 = true ∧
        (b = [] ∨ Lang (.seq (.rep alnumHyphen 0 (some 61)) alnum) b) := by
    unfold labelRegex
    constructor
    · rintro ⟨a, b, rfl, ⟨c0, rfl, hc0⟩, hb⟩
      exact ⟨c0, b, rfl, by rwa [inClass_alnum] at hc0, (lang_opt _ _).mp hb⟩
    · rintro ⟨c0, b, rfl, hc0, hb⟩
      exact ⟨[c0], b, rfl, ⟨c0, rfl, by rwa [inClass_alnum]⟩, (lang_opt _ _).mpr hb⟩
  rw [houter]
  simp only [isLabel, labelShape, Bool.and_eq_true, decide_eq_true_eq, List.all_eq_true,
    bne_iff_ne, ne_eq]
  constructor
  · rintro ⟨c0, b, rfl, hc0, hb⟩
    rcases hb with rfl | hb
    · refine ⟨⟨by simp, by simp⟩, ⟨?_, ?_⟩, ?_⟩
      · intro c hc
        simp only [List.mem_singleton] at hc
        subst hc
        exact isLetterOrDigit_imp_isLabelChar hc0
      · simpa using isLetterOrDigit_ne_hyphen hc0
      · simpa using isLetterOrDigit_ne_hyphen hc0
    · obtain ⟨m, cl, rfl, h1, h2, h3⟩ := (hinner b).mp hb
      refine ⟨⟨by simp, by simp; omega⟩, ⟨?_, ?_⟩, ?_⟩
      · intro c hc
        simp only [List.mem_cons, List.mem_append, List.not_mem_nil, or_false] at hc
        rcases hc with rfl | hc | rfl
        · exact isLetterOrDigit_imp_isLabelChar hc0
        · exact h2 c hc
        · exact isLetterOrDigit_imp_isLabelChar h3
      · simpa using isLetterOrDigit_ne_hyphen hc0
      · rw [← List.cons_append, List.getLast?_append]
        simpa using isLetterOrDigit_ne_hyphen h3
  · rintro ⟨⟨hlo, hhi⟩, ⟨hall, hhead⟩, hlast⟩
    cases l with
    | nil => simp at hlo
    | cons c0 b =>
      have hc0 : isLetterOrDigit c0 = true :=
        isLetterOrDigit_of_labelChar (hall c0 (by simp)) (by simpa using hhead)
      refine ⟨c0, b, rfl, hc0, ?_⟩
      rcases List.eq_nil_or_concat b with rfl | ⟨m, cl, rfl⟩
      · left; rfl
      · right
        rw [hinner]
        refine ⟨m, cl, by simp, ?_, ?_, ?_⟩
        · simp at hhi
          omega
        · intro c hc
          exact hall c (by simp [hc])
        · refine isLetterOrDigit_of_labelChar (hall cl (by simp)) ?_
          rw [List.concat_eq_append, ← List.cons_append, List.getLast?_append] at hlast
          simpa using hlast

theorem lang_tld (b : List Char) : Lang (.rep alpha 2 none) b ↔ isTLD b = true := by
  unfold alpha
  rw [lang_rep_cls]
  simp only [isTLD, Bool.and_eq_true, decide_eq_true_eq, List.all_eq_true, inClass_alpha]
  constructor
  · rintro ⟨h1, -, h3⟩
    exact ⟨h1, h3⟩
  · rintro ⟨h1, h3⟩
    exact ⟨h1, by simp, h3⟩

theorem lang_group (p : List Char) :
    Lang (.seq labelRegex dot) p ↔ ∃ l, p = l ++ ['.'] ∧ isLabel l = true := by
  simp only [Lang, dot]
  constructor
  · rintro ⟨a, b, rfl, ha, c, rfl, hc⟩
    rw [inClass_single] at hc
    subst hc
    exact ⟨a, rfl, (lang_labelRegex a).mp ha⟩
  · rintro ⟨l, rfl, hl⟩
    exact ⟨l, ['.'], rfl, (lang_labelRegex l).mpr hl, '.', rfl, (inClass_single _ _).mpr rfl⟩

theorem groups_eq_map (parts : List (List Char))
    (h : ∀ p ∈ parts, ∃ l, p = l ++ ['.'] ∧ isLabel l = true) :
    ∃ ls : List (List Char), parts = ls.map (fun l => l ++ ['.']) ∧
      ∀ l ∈ ls, isLabel l = true := by
  induction parts with
  | nil => exact ⟨[], rfl, by simp⟩
  | cons p ps ih =>
    obtain ⟨l, rfl, hl⟩ := h p (by simp)
    obtain ⟨ls, rfl, hls⟩ := ih fun q hq => h q (List.mem_cons_of_mem _ hq)
    refine ⟨l :: ls, rfl, ?_⟩
    intro q hq
    rcases List.mem_cons.mp hq with rfl | hq
    · exact hl
    · exact hls q hq

theorem intercalate_cons_of_ne_nil (sep l : List Char) (ys : List (List Char)) (h : ys ≠ []) :
    sep.intercalate (l :: ys) = l ++ sep ++ sep.intercalate ys := by
  cases ys with
  | nil => exact absurd rfl h
  | cons y ys => simp [List.intercalate, List.intersperse]

theorem flatten_groups (ls : List (List Char)) (tld : List Char) :
    (ls.map fun l => l ++ ['.']).flatten ++ tld = ['.'].intercalate (ls ++ [tld]) := by
  induction ls with
  | nil => simp [List.intercalate, List.intersperse]
  | cons l ls ih =>
    rw [List.cons_append, intercalate_cons_of_ne_nil _ _ _ (by simp), ← ih]
    simp

/-- The strings matched by `domainRegex`: one or more labels, each followed by
a dot, and then a final run of at least two letters. -/
theorem lang_domainRegex (s : List Char) :
    Lang domainRegex s ↔
      ∃ (ls : List (List Char)) (tld : List Char), ls ≠ [] ∧ (∀ l ∈ ls, isLabel l = true) ∧
        isTLD tld = true ∧ s = ['.'].intercalate (ls ++ [tld]) := by
  unfold domainRegex
  constructor
  · rintro ⟨a, b, rfl, ⟨parts, rfl, h1, -, h3⟩, hb⟩
    obtain ⟨ls, rfl, hls⟩ := groups_eq_map parts fun p hp => (lang_group p).mp (h3 p hp)
    refine ⟨ls, b, ?_, hls, (lang_tld b).mp hb, flatten_groups ls b⟩
    rintro rfl
    simp at h1
  · rintro ⟨ls, tld, hne, hls, htld, rfl⟩
    refine ⟨(ls.map fun l => l ++ ['.']).flatten, tld, (flatten_groups ls tld).symm, ?_,
      (lang_tld tld).mpr htld⟩
    refine ⟨ls.map fun l => l ++ ['.'], rfl, ?_, by simp, ?_⟩
    · cases ls with
      | nil => exact absurd rfl hne
      | cons l ls => simp
    · intro p hp
      obtain ⟨l, hl, rfl⟩ := List.mem_map.mp hp
      exact (lang_group _).mpr ⟨l, rfl, hls l hl⟩

theorem isLabel_no_dot {l : List Char} (h : isLabel l = true) : '.' ∉ l := by
  simp only [isLabel, labelShape, Bool.and_eq_true, List.all_eq_true] at h
  intro hmem
  exact isLabelChar_ne_dot (h.2.1.1 _ hmem) rfl

theorem isTLD_no_dot {l : List Char} (h : isTLD l = true) : '.' ∉ l := by
  simp only [isTLD, Bool.and_eq_true, List.all_eq_true] at h
  intro hmem
  exact isLabelChar_ne_dot
    (isLetterOrDigit_imp_isLabelChar (isLetter_imp_isLetterOrDigit (h.2 _ hmem))) rfl

/-- The grammar accepted by `domainRegex`, in terms of the dot-separated labels. -/
theorem matchString_domainRegex (s : String) :
    matchString domainRegex s = true ↔
      ∃ (ls : List (List Char)) (tld : List Char), ls ≠ [] ∧ (∀ l ∈ ls, isLabel l = true) ∧
        isTLD tld = true ∧ labels s = ls ++ [tld] := by
  rw [matchString_iff, lang_domainRegex]
  constructor
  · rintro ⟨ls, tld, hne, hls, htld, hs⟩
    refine ⟨ls, tld, hne, hls, htld, ?_⟩
    unfold labels
    rw [hs]
    refine List.splitOn_intercalate _ '.' ?_ (by simp)
    intro l hl
    rcases List.mem_append.mp hl with hl | hl
    · exact isLabel_no_dot (hls l hl)
    · rw [List.mem_singleton.mp hl]
      exact isTLD_no_dot htld
  · rintro ⟨ls, tld, hne, hls, htld, hs⟩
    refine ⟨ls, tld, hne, hls, htld, ?_⟩
    unfold labels at hs
    rw [← hs, List.intercalate_splitOn]

theorem labels_of_no_dot (s : String) (h : '.' ∉ s.data) : labels s = [s.data] := by
  unfold labels List.splitOn
  apply List.splitOnP_eq_single
  intro c hc hdot
  rw [beq_iff_eq] at hdot
  exact h (hdot ▸ hc)

theorem mem_intercalate {sep : List Char} {ls : List (List Char)} {c : Char}
    (h : c ∈ sep.intercalate ls) : c ∈ sep ∨ ∃ l ∈ ls, c ∈ l := by
  induction ls with
  | nil => simp [List.intercalate, List.intersperse] at h
  | cons l ls ih =>
    by_cases hls : ls = []
    · subst hls
      right
      exact ⟨l, by simp, by simpa [List.intercalate, List.intersperse] using h⟩
    · rw [intercalate_cons_of_ne_nil _ _ _ hls, List.mem_append, List.mem_append] at h
      rcases h with (h | h) | h
      · exact Or.inr ⟨l, by simp, h⟩
      · exact Or.inl h
      · rcases ih h with h | ⟨l', hl', hc⟩
        · exact Or.inl h
        · exact Or.inr ⟨l', List.mem_cons_of_mem _ hl', hc⟩

/-- Every character of a string is a dot or belongs to one of its labels. -/
theorem mem_labels_of_mem (s : String) {c : Char} (h : c ∈ s.data) :
    c = '.' ∨ ∃ l ∈ labels s, c ∈ l := by
  rw [← List.intercalate_splitOn s.data '.'] at h
  rcases mem_intercalate h with h | h
  · exact Or.inl (List.mem_singleton.mp h)
  · exact Or.inr h

theorem isTLD_imp_shape {l : List Char} (h : isTLD l = true) :
    1 ≤ l.length ∧ labelShape l = true := by
  simp only [isTLD, Bool.and_eq_true, decide_eq_true_eq, List.all_eq_true] at h
  have hne : ∀ c ∈ l, c ≠ '-' := fun c hc =>
    isLetterOrDigit_ne_hyphen (isLetter_imp_isLetterOrDigit (h.2 c hc))
  refine ⟨by omega, ?_⟩
  simp only [labelShape, Bool.and_eq_true, List.all_eq_true, bne_iff_ne, ne_eq]
  refine ⟨⟨fun c hc => isLetterOrDigit_imp_isLabelChar (isLetter_imp_isLetterOrDigit (h.2 c hc)),
    ?_⟩, ?_⟩
  · intro hh
    exact hne _ (List.mem_of_mem_head? hh) rfl
  · intro hh
    exact hne _ (List.mem_of_getLast?_eq_some hh) rfl

theorem errDomainTooLong_ne_format (s : String) : errDomainTooLong ≠ errDomainFormat s := by
  intro h
  have h2 := congrArg String.data h
  simp only [errDomainFormat, String.data_append] at h2
  have h3 := congrArg List.head? h2
  simp only [List.cons_append, List.head?_cons] at h3
  revert h3
  decide

/-! ## Claims about `ValidateDomain` -/

/-- C3: `ValidateDomain` returns nil for every string of length at most 253 whose
dot-separated labels are two or more, each 1 to 63 letters, digits or hyphens
without a hyphen at either edge, the final one being at least 2 letters; and it
returns an error for every string that contains no dot. -/
theorem validateDomain_accepts_hosts_rejects_dotless :
    (∀ s : String, s.length ≤ 253 → 2 ≤ (labels s).length →
      (∀ l ∈ labels s, isLabel l = true) →
      (∀ l, (labels s).getLast? = some l → isTLD l = true) → ValidateDomain s = none) ∧
    (∀ s : String, '.' ∉ s.data → ∃ err, ValidateDomain s = some err) := by
  constructor
  · intro s hlen h2 hall hlast
    have hne : labels s ≠ [] := by
      intro h
      rw [h] at h2
      simp at h2
    have hsplit := List.dropLast_append_getLast hne
    have htld : isTLD ((labels s).getLast hne) = true :=
      hlast _ (List.getLast?_eq_getLast _ hne)
    have hmatch : matchString domainRegex s = true := by
      rw [matchString_domainRegex]
      refine ⟨(labels s).dropLast, (labels s).getLast hne, ?_, ?_, htld, hsplit.symm⟩
      · intro h
        have := congrArg List.length h
        simp at this
        omega
      · intro l hl
        exact hall l (List.mem_of_mem_dropLast hl)
    have hascii : ∀ c ∈ s.data, c.toNat ≤ 127 := by
      intro c hc
      rcases mem_labels_of_mem s hc with rfl | ⟨l, hl, hcl⟩
      · decide
      · have := hall l hl
        simp only [isLabel, labelShape, Bool.and_eq_true, List.all_eq_true] at this
        exact isLabelChar_ascii (this.2.1.1 c hcl)
    have hbytes : s.utf8ByteSize ≤ 253 := by
      rw [utf8ByteSize_eq, utf8Len_ascii _ hascii]
      exact hlen
    have hnonempty : s ≠ "" := by
      rintro rfl
      revert h2
      decide
    unfold ValidateDomain
    rw [if_neg hnonempty, if_neg (by omega), hmatch]
    rfl
  · intro s hdot
    unfold ValidateDomain
    split
    · exact ⟨_, rfl⟩
    · split
      · exact ⟨_, rfl⟩
      · split
        · exact ⟨_, rfl⟩
        · rename_i hm
          exfalso
          have hm' : matchString domainRegex s = true := by simpa using hm
          obtain ⟨ls, tld, hne, -, -, hs⟩ := (matchString_domainRegex s).mp hm'
          rw [labels_of_no_dot s hdot] at hs
          have := congrArg List.length hs
          simp at this
          exact hne this

/-- C3, on the inputs named by the specification: `sub.example.com` is
accepted and `localhost` is refused. -/
theorem validateDomain_accepts_hosts_rejects_dotless_witness :
    ValidateDomain "sub.example.com" = none ∧ ∃ err, ValidateDomain "localhost" = some err :=
  ⟨validateDomain_accepts_hosts_rejects_dotless.1 "sub.example.com" (by decide) (by decide)
      (by decide) (by decide),
    validateDomain_accepts_hosts_rejects_dotless.2 "localhost" (by decide)⟩

/-- C4: every string of more than 253 characters is refused with the
length-exceeded error, and never with the format error. -/
theorem validateDomain_too_long (s : String) (h : 253 < s.length) :
    ValidateDomain s = some errDomainTooLong ∧ ValidateDomain s ≠ some (errDomainFormat s) := by
  have hbytes : 253 < s.utf8ByteSize := by
    rw [utf8ByteSize_eq]
    exact lt_of_lt_of_le h (length_le_utf8Len s.data)
  have hnonempty : s ≠ "" := by
    rintro rfl
    simp at h
  have hv : ValidateDomain s = some errDomainTooLong := by
    unfold ValidateDomain
    rw [if_neg hnonempty, if_pos hbytes]
  refine ⟨hv, ?_⟩
  rw [hv]
  intro h'
  exact errDomainTooLong_ne_format s (Option.some.inj h')

/-- C4 at a 254-character domain whose labels are otherwise well formed. -/
theorem validateDomain_too_long_witness :
    253 < domain254.length ∧ ValidateDomain domain254 = some errDomainTooLong ∧
      ValidateDomain domain254 ≠ some (errDomainFormat domain254) :=
  ⟨by decide, validateDomain_too_long domain254 (by decide)⟩

theorem matchString_of_validateDomain {s : String} (h : ValidateDomain s = none) :
    matchString domainRegex s = true := by
  unfold ValidateDomain at h
  split at h
  · simp at h
  · split at h
    · simp at h
    · split at h
      · simp at h
      · rename_i hm
        simpa using hm

/-- C5 as stated fails: a domain whose final label has 64 letters is accepted,
although that label is longer than 63 characters. -/
theorem validateDomain_accepts_long_final_label :
    ValidateDomain domainLongFinalLabel = none ∧
      ∃ l ∈ labels domainLongFinalLabel, 63 < l.length ∧ isLabel l = false := by
  decide

/-- A string of at most 253 characters whose labels before the last are
well formed and whose last label is at least two letters, of any length, is
accepted. -/
theorem validateDomain_of_labels (s : String) (hlen : s.length ≤ 253)
    (h2 : 2 ≤ (labels s).length) (hinit : ∀ l ∈ (labels s).dropLast, isLabel l = true)
    (hlast : ∀ l, (labels s).getLast? = some l → isTLD l = true) :
    ValidateDomain s = none := by
  have hne : labels s ≠ [] := by
    intro h
    rw [h] at h2
    simp at h2
  have hsplit := List.dropLast_append_getLast hne
  have htld : isTLD ((labels s).getLast hne) = true :=
    hlast _ (List.getLast?_eq_getLast _ hne)
  have hmatch : matchString domainRegex s = true := by
    rw [matchString_domainRegex]
    refine ⟨(labels s).dropLast, (labels s).getLast hne, ?_, hinit, htld, hsplit.symm⟩
    intro h
    have := congrArg List.length h
    simp at this
    omega
  have hascii : ∀ c ∈ s.data, c.toNat ≤ 127 := by
    intro c hc
    rcases mem_labels_of_mem s hc with rfl | ⟨l, hl, hcl⟩
    · decide
    · rw [← hsplit] at hl
      rcases List.mem_append.mp hl with hl | hl
      · have := hinit l hl
        simp only [isLabel, labelShape, Bool.and_eq_true, List.all_eq_true] at this
        exact isLabelChar_ascii (this.2.1.1 c hcl)
      · rw [List.mem_singleton.mp hl] at hcl
        simp only [isTLD, Bool.and_eq_true, List.all_eq_true] at htld
        exact isLabelChar_ascii
          (isLetterOrDigit_imp_isLabelChar (isLetter_imp_isLetterOrDigit (htld.2 c hcl)))
  have hbytes : s.utf8ByteSize ≤ 253 := by
    rw [utf8ByteSize_eq, utf8Len_ascii _ hascii]
    exact hlen
  have hnonempty : s ≠ "" := by
    rintro rfl
    revert h2
    decide
  unfold ValidateDomain
  rw [if_neg hnonempty, if_neg (by omega), hmatch]
  rfl

/-- C5, amended: on every accepted string each dot-separated label is non-empty,
made of letters, digits and hyphens with no hyphen at either edge, every label
but the final one is at most 63 characters long, and the final label is at
least 2 ASCII letters; the final label has no length bound of its own, for
every string of at most 253 characters made of one or more such labels and a
final label of at least 2 ASCII letters is accepted. -/
theorem validateDomain_accepts_only_hosts :
    (∀ s : String, ValidateDomain s = none →
      (∀ l ∈ labels s, 1 ≤ l.length ∧ labelShape l = true) ∧
      (∀ l ∈ (labels s).dropLast, l.length ≤ 63) ∧
      (∀ l, (labels s).getLast? = some l → isTLD l = true)) ∧
    (∀ s : String, s.length ≤ 253 → 2 ≤ (labels s).length →
      (∀ l ∈ (labels s).dropLast, isLabel l = true) →
      (∀ l, (labels s).getLast? = some l → isTLD l = true) → ValidateDomain s = none) := by
  refine ⟨?_, validateDomain_of_labels⟩
  intro s h
  obtain ⟨ls, tld, -, hls, htld, hs⟩ :=
    (matchString_domainRegex s).mp (matchString_of_validateDomain h)
  rw [hs]
  refine ⟨?_, ?_, ?_⟩
  · intro l hl
    rcases List.mem_append.mp hl with hl | hl
    · have := hls l hl
      simp only [isLabel, Bool.and_eq_true, decide_eq_true_eq] at this
      exact ⟨this.1.1, this.2⟩
    · rw [List.mem_singleton.mp hl]
      exact isTLD_imp_shape htld
  · intro l hl
    rw [List.dropLast_concat] at hl
    have := hls l hl
    simp only [isLabel, Bool.and_eq_true, decide_eq_true_eq] at this
    exact this.1.2
  · intro l hl
    rw [List.getLast?_concat] at hl
    cases hl
    exact htld

/-- C5 amended, at `sub.example.com` and at a domain of 253 characters whose
final label has 251 letters. -/
theorem validateDomain_accepts_only_hosts_witness :
    (ValidateDomain "sub.example.com" = none ∧
      (∀ l ∈ labels "sub.example.com", 1 ≤ l.length ∧ labelShape l = true) ∧
      (∀ l ∈ (labels "sub.example.com").dropLast, l.length ≤ 63) ∧
      (∀ l, (labels "sub.example.com").getLast? = some l → isTLD l = true)) ∧
    (labels domainLongestFinalLabel).getLast?.map List.length = some 251 ∧
    ValidateDomain domainLongestFinalLabel = none :=
  ⟨⟨by decide, validateDomain_accepts_only_hosts.1 "sub.example.com" (by decide)⟩,
    by decide,
    validateDomain_accepts_only_hosts.2 domainLongestFinalLabel (by decide) (by decide)
      (by decide) (fun l hl => by
        have hl' : l = (labels domainLongestFinalLabel).getLast (by decide) :=
          Option.some.inj (hl.symm.trans (List.getLast?_eq_getLast _ (by decide)))
        rw [hl']
        decide)⟩

/-! ## The orchestration run -/

@[simp] theorem Run.after_result (evs : List Event) (r : Run) :
    (r.after evs).result = r.result := rfl

@[simp] theorem Run.after_trace (evs : List Event) (r : Run) :
    (r.after evs).trace = evs ++ r.trace := rfl

/-- Polling hands back a host only when its status is `READY`. -/
theorem pollLoop_ok_ready (domain : String) (script : List PollStep) (interval : Nat)
    (host : Host) (h : (pollLoop domain script interval).result = some (.ok host)) :
    host.Status = StatusReady := by
  induction script generalizing interval with
  | nil => simp [pollLoop] at h
  | cons st rest ih =>
    unfold pollLoop at h
    split at h
    · simp at h
    · split at h
      · simp at h
      · split at h
        · simp at h
        · rename_i h' _
          simp only at h
          split at h
          · rename_i hr
            simp only [Option.some.injEq, Except.ok.injEq] at h
            exact h ▸ hr
          · split at h
            · simp at h
            · split at h
              · exact ih _ (by simpa using h)
              · split at h
                · exact ih _ (by simpa using h)
                · exact ih _ (by simpa using h)

/-- Past the gate, with a non-terminal start and no usable cache entry, the run
is the polling loop preceded by the start-up events. -/
theorem runAnalysis_polls (w : Collaborators) (script : List PollStep) (domain : String)
    (h0 : Host) (hstart : StartsWith w domain h0) (hnt : ¬ Terminal h0)
    (hmiss : CacheMiss w domain) :
    RunAnalysis w script domain = (pollAnalysisStatus script domain).after (prePollEvents domain) ∨
    RunAnalysis w script domain = (pollAnalysisStatus script domain).after
      (prePollEvents domain ++ [.loadLocalCache (cacheFilePath domain) domain]) := by
  obtain ⟨hv, ⟨info, hinfo, hcap⟩, hs⟩ := hstart
  have hcap' : ¬ info.CurrentAssessments ≥ info.MaxAssessments := not_le.mpr hcap
  unfold Terminal at hnt
  unfold RunAnalysis
  simp only [hv, hinfo, hs, if_neg hcap', if_neg hnt]
  rcases hmiss with hc | ⟨hc, err, hl⟩
  · left
    simp only [hc]
    rfl
  · right
    simp only [hc, hl]
    rfl

/-- Where a returned host comes from: a terminal answer of `StartAnalysis`, the
local cache, or a `READY` answer of the polling loop. -/
theorem runAnalysis_ok_cases (w : Collaborators) (script : List PollStep)
    (domain : String) (host : Host)
    (h : (RunAnalysis w script domain).result = some (.ok host)) :
    (w.StartAnalysis domain = .ok host ∧ Terminal host) ∨
    (w.CheckDomainInCache (cacheFilePath domain) domain = .ok true ∧
      w.LoadLocalCache (cacheFilePath domain) domain = .ok host) ∨
    ((pollAnalysisStatus script domain).result = some (.ok host) ∧
      host.Status = StatusReady) := by
  unfold RunAnalysis at h
  split at h
  · simp at h
  · split at h
    · simp at h
    · split at h
      · simp at h
      · split at h
        · simp at h
        · rename_i started hs
          split at h
          · rename_i hterm
            simp only [Option.some.injEq, Except.ok.injEq] at h
            subst h
            exact Or.inl ⟨hs, hterm⟩
          · split at h
            · simp at h
            · rename_i inCache hc
              split at h
              · rename_i hin
                subst hin
                split at h
                · rename_i cached hl
                  simp only [Option.some.injEq, Except.ok.injEq] at h
                  subst h
                  exact Or.inr (Or.inl ⟨hc, hl⟩)
                · have h' : (pollAnalysisStatus script domain).result = some (.ok host) := by
                    simpa using h
                  exact Or.inr (Or.inr ⟨h', pollLoop_ok_ready _ _ _ _ h'⟩)
              · have h' : (pollAnalysisStatus script domain).result = some (.ok host) := by
                  simpa using h
                exact Or.inr (Or.inr ⟨h', pollLoop_ok_ready _ _ _ _ h'⟩)

/-! ## Claims about returned hosts -/

/-- C1 as stated fails: after a `DNS` start, a cached `IN_PROGRESS` snapshot is
returned with a nil error. -/
theorem runAnalysis_returns_cached_in_progress :
    (RunAnalysis cachedWorld [] "example.com").result = some (.ok progressHost) ∧
      progressHost.Status ≠ "READY" ∧ progressHost.Status ≠ "ERROR" := by
  decide

/-- C1, amended: a host returned with a nil error has status `READY` or `ERROR`,
unless it is the entry loaded from the local cache, which is returned as it is. -/
theorem runAnalysis_returns_terminal_or_cached (w : Collaborators) (script : List PollStep)
    (domain : String) (host : Host)
    (h : (RunAnalysis w script domain).result = some (.ok host)) :
    host.Status = StatusReady ∨ host.Status = StatusError ∨
      (w.CheckDomainInCache (cacheFilePath domain) domain = .ok true ∧
        w.LoadLocalCache (cacheFilePath domain) domain = .ok host) := by
  rcases runAnalysis_ok_cases w script domain host h with ⟨-, ht | ht⟩ | hc | ⟨-, hr⟩
  · exact Or.inl ht
  · exact Or.inr (Or.inl ht)
  · exact Or.inr (Or.inr hc)
  · exact Or.inl hr

/-- C1 amended, on a run that polls `DNS, IN_PROGRESS, IN_PROGRESS, READY`. -/
theorem runAnalysis_returns_terminal_or_cached_witness :
    (RunAnalysis freshWorld sampleScript "example.com").result = some (.ok readyHost) ∧
    (readyHost.Status = StatusReady ∨ readyHost.Status = StatusError ∨
      (freshWorld.CheckDomainInCache (cacheFilePath "example.com") "example.com" = .ok true ∧
        freshWorld.LoadLocalCache (cacheFilePath "example.com") "example.com" =
          .ok readyHost)) :=
  ⟨by decide, runAnalysis_returns_terminal_or_cached freshWorld sampleScript "example.com"
    readyHost (by decide)⟩

/-- One iteration that goes round again. -/
theorem pollLoop_cons_keeps (domain : String) (st : PollStep) (rest : List PollStep)
    (interval : Nat) (host : Host) (hst : Undisturbed st)
    (hcheck : st.CheckAnalysisStatus domain = .ok host) (hnt : ¬ Terminal host) :
    pollLoop domain (st :: rest) interval =
      (pollLoop domain rest (nextInterval interval host)).after
        (stepEvents st domain interval host) := by
  have hr : ¬ host.Status = StatusReady := fun h => hnt (Or.inl h)
  have he : ¬ host.Status = StatusError := fun h => hnt (Or.inr h)
  conv_lhs => unfold pollLoop
  simp only [hst.1, if_neg (not_lt.mpr hst.2), hcheck, if_neg hr, if_neg he, nextInterval,
    stepEvents]
  split
  · rfl
  · split
    · simp
    · simp

/-- Iterations that keep polling are passed through: the loop arrives at the
rest of the script, with some poll interval. -/
theorem pollLoop_append_keeps (domain : String) (pre rest : List PollStep)
    (hpre : ∀ p ∈ pre, KeepsPolling domain p) (interval : Nat) :
    ∃ interval' evs,
      pollLoop domain (pre ++ rest) interval = (pollLoop domain rest interval').after evs := by
  induction pre generalizing interval with
  | nil => exact ⟨interval, [], rfl⟩
  | cons st pre ih =>
    obtain ⟨hst, host, hcheck, hnt⟩ := hpre st (by simp)
    obtain ⟨i', evs, hi⟩ := ih (fun p hp => hpre p (List.mem_cons_of_mem _ hp))
      (nextInterval interval host)
    refine ⟨i', stepEvents st domain interval host ++ evs, ?_⟩
    rw [List.cons_append, pollLoop_cons_keeps domain st _ interval host hst hcheck hnt, hi]
    simp [Run.after]

/-- An undisturbed status check that answers `ERROR` ends the loop with a
failure carrying the status message. -/
theorem pollLoop_error_status (domain : String) (st : PollStep) (post : List PollStep)
    (interval : Nat) (host : Host) (hst : Undisturbed st)
    (hcheck : st.CheckAnalysisStatus domain = .ok host) (herr : host.Status = StatusError) :
    (pollLoop domain (st :: post) interval).result =
      some (.error (errAnalysisFailed host.StatusMessage)) := by
  have hr : ¬ host.Status = StatusReady := by
    rw [herr]
    decide
  unfold pollLoop
  simp only [hst.1, if_neg (not_lt.mpr hst.2), hcheck, if_neg hr, if_pos herr]

/-- On the polling path a status check that answers `ERROR` makes the run fail
with a message carrying that answer's status message. -/
theorem runAnalysis_poll_error_fails (w : Collaborators) (script : List PollStep)
    (domain : String) (h0 : Host) (pre : List PollStep) (st : PollStep) (post : List PollStep)
    (host : Host) (hstart : StartsWith w domain h0) (hnt : ¬ Terminal h0)
    (hmiss : CacheMiss w domain) (hscript : script = pre ++ st :: post)
    (hpre : ∀ p ∈ pre, KeepsPolling domain p) (hst : Undisturbed st)
    (hcheck : st.CheckAnalysisStatus domain = .ok host) (herr : host.Status = StatusError) :
    (RunAnalysis w script domain).result =
      some (.error (errAnalysisFailed host.StatusMessage)) := by
  have hpoll : (pollAnalysisStatus script domain).result =
      some (.error (errAnalysisFailed host.StatusMessage)) := by
    obtain ⟨i', evs, hi⟩ := pollLoop_append_keeps domain pre (st :: post) hpre
      PollIntervalInitial
    rw [pollAnalysisStatus, hscript, hi, Run.after_result]
    exact pollLoop_error_status domain st post i' host hst hcheck herr
  rcases runAnalysis_polls w script domain h0 hstart hnt hmiss with h | h
  · rw [h, Run.after_result, hpoll]
  · rw [h, Run.after_result, hpoll]

/-- C2 fails on the code: a job that `StartAnalysis` reports in status `ERROR`
is returned as a host with a nil error, whereas the same `ERROR` answer given
to a status check makes the run fail with the status message; and the report
printed for the returned host shows neither the message nor the status. -/
theorem runAnalysis_returns_error_host_from_start :
    errorWorld.StartAnalysis "example.com" = .ok errorHost ∧
    errorHost.Status = "ERROR" ∧
    (RunAnalysis errorWorld [] "example.com").result = some (.ok errorHost) ∧
    (RunAnalysis freshWorld failingScript "example.com").result =
      some (.error ("el análisis terminó con error: " ++ errorHost.StatusMessage)) ∧
    ¬ errorHost.StatusMessage.data <:+:
      ((NewFormatter true).PrintReport plainRuntime errorHost).data ∧
    ¬ errorHost.Status.data <:+:
      ((NewFormatter true).PrintReport plainRuntime errorHost).data := by
  decide

/-! ## The capacity gate -/

theorem head?_append_left {a : String} {c : Char} (h : a.data.head? = some c) (b : String) :
    (a ++ b).data.head? = some c := by
  rw [String.data_append]
  cases hd : a.data with
  | nil => simp [hd] at h
  | cons x xs =>
    rw [hd] at h
    simpa using h

theorem errCapacity_head (info : Info) : (errCapacity info).data.head? = some 'l' := by
  unfold errCapacity
  exact head?_append_left (head?_append_left (head?_append_left
    (head?_append_left (by decide) _) _) _) _

/-- No failure of the polling loop is the capacity-limit error. -/
theorem pollLoop_error_head (domain : String) (script : List PollStep) (interval : Nat)
    (err : String) (h : (pollLoop domain script interval).result = some (.error err)) :
    err.data.head? ≠ some 'l' := by
  induction script generalizing interval with
  | nil => simp [pollLoop] at h
  | cons st rest ih =>
    unfold pollLoop at h
    split at h
    · simp only [Option.some.injEq, Except.error.injEq] at h
      rw [← h, errCancelled, head?_append_left (c := 'a') (by decide)]
      decide
    · split at h
      · simp only [Option.some.injEq, Except.error.injEq] at h
        rw [← h]
        decide
      · split at h
        · simp only [Option.some.injEq, Except.error.injEq] at h
          rw [← h, errCheckStatus, head?_append_left (c := 'e') (by decide)]
          decide
        · simp only at h
          split at h
          · simp at h
          · split at h
            · simp only [Option.some.injEq, Except.error.injEq] at h
              rw [← h, errAnalysisFailed, head?_append_left (c := 'e') (by decide)]
              decide
            · split at h
              · exact ih _ (by simpa using h)
              · split at h
                · exact ih _ (by simpa using h)
                · exact ih _ (by simpa using h)

/-- C6: a job is started, and a status check issued, only after validation
returned nil and the capacity snapshot showed free capacity; for a valid domain
and a successful `GetInfo` the run fails with the capacity-limit error exactly
when `CurrentAssessments >= MaxAssessments`, and then nothing is started. -/
theorem runAnalysis_capacity_gate (w : Collaborators) (script : List PollStep)
    (domain : String) :
    ((∃ e ∈ (RunAnalysis w script domain).trace, e.isStart = true ∨ e.isCheck = true) →
      ValidateDomain domain = none ∧
        ∃ info, w.GetInfo = .ok info ∧ info.CurrentAssessments < info.MaxAssessments) ∧
    (∀ info, ValidateDomain domain = none → w.GetInfo = .ok info →
      ((RunAnalysis w script domain).result = some (.error (errCapacity info)) ↔
        info.CurrentAssessments ≥ info.MaxAssessments) ∧
      (info.CurrentAssessments ≥ info.MaxAssessments →
        ∀ e ∈ (RunAnalysis w script domain).trace, e.isStart = false ∧ e.isCheck = false)) := by
  constructor
  · rintro ⟨e, he, hkind⟩
    unfold RunAnalysis at he
    split at he
    · simp at he
    · rename_i hv
      split at he
      · simp only [List.mem_singleton] at he
        subst he
        simp [Event.isStart, Event.isCheck] at hkind
      · rename_i info hinfo
        split at he
        · simp only [List.mem_singleton] at he
          subst he
          simp [Event.isStart, Event.isCheck] at hkind
        · rename_i hcap
          exact ⟨hv, info, hinfo, not_le.mp hcap⟩
  · intro info hv hinfo
    by_cases hcap : info.CurrentAssessments ≥ info.MaxAssessments
    · have hrun : RunAnalysis w script domain =
          ⟨[.getInfo], some (.error (errCapacity info))⟩ := by
        unfold RunAnalysis
        simp only [hv, hinfo, if_pos hcap]
      rw [hrun]
      refine ⟨⟨fun _ => hcap, fun _ => rfl⟩, ?_⟩
      intro _ e he
      simp only [List.mem_singleton] at he
      subst he
      exact ⟨rfl, rfl⟩
    · refine ⟨⟨?_, fun h => absurd h hcap⟩, fun h => absurd h hcap⟩
      intro hres
      exfalso
      have hl := errCapacity_head info
      have hpoll : (pollAnalysisStatus script domain).result ≠
          some (.error (errCapacity info)) :=
        fun h => pollLoop_error_head domain script PollIntervalInitial _ h hl
      unfold RunAnalysis at hres
      simp only [hv, hinfo, if_neg hcap] at hres
      split at hres
      · simp only [Option.some.injEq, Except.error.injEq] at hres
        rw [← hres, errStart, head?_append_left (c := 'n') (by decide)] at hl
        revert hl
        decide
      · split at hres
        · simp at hres
        · split at hres
          · simp only [Option.some.injEq, Except.error.injEq] at hres
            rw [← hres, errCacheCheck, head?_append_left (c := 'e') (by decide)] at hl
            revert hl
            decide
          · split at hres
            · split at hres
              · simp at hres
              · exact hpoll (by simpa using hres)
            · exact hpoll (by simpa using hres)

/-- C6 on a service at its quota and on one with free capacity. -/
theorem runAnalysis_capacity_gate_witness :
    (RunAnalysis busyWorld sampleScript "example.com").result =
      some (.error (errCapacity busyInfo)) ∧
    (∀ e ∈ (RunAnalysis busyWorld sampleScript "example.com").trace,
      e.isStart = false ∧ e.isCheck = false) ∧
    (ValidateDomain "example.com" = none ∧
      ∃ info, freshWorld.GetInfo = .ok info ∧
        info.CurrentAssessments < info.MaxAssessments) :=
  ⟨((runAnalysis_capacity_gate busyWorld sampleScript "example.com").2 busyInfo (by decide)
      rfl).1.mpr (by decide),
    ((runAnalysis_capacity_gate busyWorld sampleScript "example.com").2 busyInfo (by decide)
      rfl).2 (by decide),
    (runAnalysis_capacity_gate freshWorld sampleScript "example.com").1
      ⟨.startAnalysis "example.com", by decide, Or.inl rfl⟩⟩

/-! ## Start-up outcomes -/

/-- C7: with a non-terminal start and a usable cache entry, the run returns
exactly the cached host with a nil error and never checks the status. -/
theorem runAnalysis_cache_hit (w : Collaborators) (script : List PollStep) (domain : String)
    (h0 cached : Host) (hstart : StartsWith w domain h0) (hnt : ¬ Terminal h0)
    (hc : w.CheckDomainInCache (cacheFilePath domain) domain = .ok true)
    (hl : w.LoadLocalCache (cacheFilePath domain) domain = .ok cached) :
    (RunAnalysis w script domain).result = some (.ok cached) ∧
      ∀ e ∈ (RunAnalysis w script domain).trace, e.isCheck = false := by
  obtain ⟨hv, ⟨info, hinfo, hcap⟩, hs⟩ := hstart
  have hcap' : ¬ info.CurrentAssessments ≥ info.MaxAssessments := not_le.mpr hcap
  unfold Terminal at hnt
  have hrun : RunAnalysis w script domain =
      ⟨prePollEvents domain ++ [.loadLocalCache (cacheFilePath domain) domain],
        some (.ok cached)⟩ := by
    unfold RunAnalysis
    simp only [hv, hinfo, hs, if_neg hcap', if_neg hnt, hc, hl]
    rfl
  rw [hrun]
  refine ⟨rfl, ?_⟩
  intro e he
  simp only [prePollEvents, List.cons_append, List.nil_append, List.mem_cons,
    List.not_mem_nil, or_false] at he
  rcases he with rfl | rfl | rfl | rfl <;> rfl

/-- C7 on a `DNS` start with a cached snapshot. -/
theorem runAnalysis_cache_hit_witness :
    (RunAnalysis cachedWorld sampleScript "example.com").result = some (.ok progressHost) ∧
      ∀ e ∈ (RunAnalysis cachedWorld sampleScript "example.com").trace, e.isCheck = false :=
  runAnalysis_cache_hit cachedWorld sampleScript "example.com" dnsHost progressHost
    ⟨by decide, ⟨idleInfo, rfl, by decide⟩, rfl⟩ (by decide) rfl rfl

/-- C9: when `StartAnalysis` answers `READY`, the run returns exactly that host
with a nil error, without any status check and without any cache call. -/
theorem runAnalysis_ready_start (w : Collaborators) (script : List PollStep) (domain : String)
    (host : Host) (hstart : StartsWith w domain host) (hready : host.Status = StatusReady) :
    (RunAnalysis w script domain).result = some (.ok host) ∧
      ∀ e ∈ (RunAnalysis w script domain).trace, e.isCheck = false ∧ e.isCache = false := by
  obtain ⟨hv, ⟨info, hinfo, hcap⟩, hs⟩ := hstart
  have hcap' : ¬ info.CurrentAssessments ≥ info.MaxAssessments := not_le.mpr hcap
  have hrun : RunAnalysis w script domain =
      ⟨[.getInfo, .startAnalysis domain], some (.ok host)⟩ := by
    unfold RunAnalysis
    simp only [hv, hinfo, hs, if_neg hcap', hready, true_or, if_true]
  rw [hrun]
  refine ⟨rfl, ?_⟩
  intro e he
  simp only [List.mem_cons, List.not_mem_nil, or_false] at he
  rcases he with rfl | rfl <;> exact ⟨rfl, rfl⟩

/-- C9 on a job that is `READY` when started. -/
theorem runAnalysis_ready_start_witness :
    (RunAnalysis readyWorld sampleScript "example.com").result = some (.ok readyHost) ∧
      ∀ e ∈ (RunAnalysis readyWorld sampleScript "example.com").trace,
        e.isCheck = false ∧ e.isCache = false :=
  runAnalysis_ready_start readyWorld sampleScript "example.com" readyHost
    ⟨by decide, ⟨idleInfo, rfl, by decide⟩, rfl⟩ rfl

/-- C8 as stated fails: when `CheckDomainInCache` reports an error the run is
aborted with that error, while the same run with no cache entry polls to `READY`. -/
theorem runAnalysis_aborts_on_cache_check_error :
    brokenCacheWorld.CheckDomainInCache (cacheFilePath "example.com") "example.com" =
      .error "permission denied" ∧
    (RunAnalysis brokenCacheWorld sampleScript "example.com").result =
      some (.error "error al verificar caché: permission denied") ∧
    (RunAnalysis { brokenCacheWorld with CheckDomainInCache := fun _ _ => .ok false }
      sampleScript "example.com").result = some (.ok readyHost) := by
  decide

/-- C8, amended: after a non-terminal start, a failing `LoadLocalCache` never
aborts the run, which falls through to polling with the outcome of the same
run without a cache entry; a failing `CheckDomainInCache` ends the run with the
cache-check error before any status check. -/
theorem runAnalysis_cache_errors (w : Collaborators) (script : List PollStep)
    (domain : String) (h0 : Host) (hstart : StartsWith w domain h0) (hnt : ¬ Terminal h0) :
    (∀ err, w.CheckDomainInCache (cacheFilePath domain) domain = .ok true →
      w.LoadLocalCache (cacheFilePath domain) domain = .error err →
      RunAnalysis w script domain = (pollAnalysisStatus script domain).after
        (prePollEvents domain ++ [.loadLocalCache (cacheFilePath domain) domain]) ∧
      RunAnalysis { w with CheckDomainInCache := fun _ _ => .ok false } script domain =
        (pollAnalysisStatus script domain).after (prePollEvents domain) ∧
      (RunAnalysis w script domain).result =
        (RunAnalysis { w with CheckDomainInCache := fun _ _ => .ok false } script
          domain).result) ∧
    (∀ err, w.CheckDomainInCache (cacheFilePath domain) domain = .error err →
      (RunAnalysis w script domain).result = some (.error (errCacheCheck err)) ∧
        ∀ e ∈ (RunAnalysis w script domain).trace, e.isCheck = false) := by
  obtain ⟨hv, ⟨info, hinfo, hcap⟩, hs⟩ := hstart
  have hcap' : ¬ info.CurrentAssessments ≥ info.MaxAssessments := not_le.mpr hcap
  unfold Terminal at hnt
  constructor
  · intro err hc hl
    have h1 : RunAnalysis w script domain = (pollAnalysisStatus script domain).after
        (prePollEvents domain ++ [.loadLocalCache (cacheFilePath domain) domain]) := by
      unfold RunAnalysis
      simp only [hv, hinfo, hs, if_neg hcap', if_neg hnt, hc, hl]
      rfl
    have h2 : RunAnalysis { w with CheckDomainInCache := fun _ _ => .ok false } script domain =
        (pollAnalysisStatus script domain).after (prePollEvents domain) := by
      unfold RunAnalysis
      simp only [hv, hinfo, hs, if_neg hcap', if_neg hnt]
      rfl
    exact ⟨h1, h2, by rw [h1, h2]; rfl⟩
  · intro err hc
    have hrun : RunAnalysis w script domain =
        ⟨prePollEvents domain, some (.error (errCacheCheck err))⟩ := by
      unfold RunAnalysis
      simp only [hv, hinfo, hs, if_neg hcap', if_neg hnt, hc]
      rfl
    rw [hrun]
    refine ⟨rfl, ?_⟩
    intro e he
    simp only [prePollEvents, List.mem_cons, List.not_mem_nil, or_false] at he
    rcases he with rfl | rfl | rfl <;> rfl

/-- C8 amended, on a cache entry that cannot be loaded and on a lookup that fails. -/
theorem runAnalysis_cache_errors_witness :
    ((RunAnalysis corruptCacheWorld sampleScript "example.com").result =
      (RunAnalysis { corruptCacheWorld with CheckDomainInCache := fun _ _ => .ok false }
        sampleScript "example.com").result) ∧
    (RunAnalysis brokenCacheWorld sampleScript "example.com").result =
      some (.error (errCacheCheck "permission denied")) :=
  ⟨((runAnalysis_cache_errors corruptCacheWorld sampleScript "example.com" dnsHost
      ⟨by decide, ⟨idleInfo, rfl, by decide⟩, rfl⟩ (by decide)).1
      "unexpected end of JSON input" rfl rfl).2.2,
    ((runAnalysis_cache_errors brokenCacheWorld sampleScript "example.com" dnsHost
      ⟨by decide, ⟨idleInfo, rfl, by decide⟩, rfl⟩ (by decide)).2
      "permission denied" rfl).1⟩

/-! ## The polling cadence -/

theorem waits_append (a b : List Event) : waits (a ++ b) = waits a ++ waits b := by
  simp [waits, List.filterMap_append]

theorem checks_append (a b : List Event) : checks (a ++ b) = checks a ++ checks b := by
  simp [checks]

theorem waits_saveStatus (st : PollStep) (domain : String) (host : Host) :
    waits (saveStatus st domain host) = [] := by
  unfold saveStatus
  split <;> rfl

theorem checks_saveStatus (st : PollStep) (domain : String) (host : Host) :
    checks (saveStatus st domain host) = [] := by
  unfold saveStatus
  split <;> rfl

theorem waits_reportProgress (host : Host) : waits (reportProgress host) = [] := by
  unfold reportProgress waits
  induction host.Endpoints.filter fun endpoint => decide (endpoint.Progress ≥ 0) with
  | nil => rfl
  | cons ep eps ih => simp

theorem checks_reportProgress (host : Host) : checks (reportProgress host) = [] := by
  unfold reportProgress checks
  induction host.Endpoints.filter fun endpoint => decide (endpoint.Progress ≥ 0) with
  | nil => rfl
  | cons ep eps ih => simp [Event.isCheck]

theorem waits_stepEvents (st : PollStep) (domain : String) (interval : Nat) (host : Host) :
    waits (stepEvents st domain interval host) = [interval] := by
  unfold stepEvents
  rw [waits_append, waits_append, waits_saveStatus]
  split
  · rw [waits_reportProgress]
    rfl
  · rfl

theorem checks_stepEvents (st : PollStep) (domain : String) (interval : Nat) (host : Host) :
    checks (stepEvents st domain interval host) = [.checkAnalysisStatus domain] := by
  unfold stepEvents
  rw [checks_append, checks_append, checks_saveStatus]
  split
  · rw [checks_reportProgress]
    rfl
  · rfl

/-- An undisturbed status check that answers `READY` ends the loop with that host. -/
theorem pollLoop_ready (domain : String) (st : PollStep) (rest : List PollStep)
    (interval : Nat) (host : Host) (hst : Undisturbed st)
    (hcheck : st.CheckAnalysisStatus domain = .ok host) (hready : host.Status = StatusReady) :
    pollLoop domain (st :: rest) interval =
      ⟨[.wait interval, .checkAnalysisStatus domain] ++ saveStatus st domain host,
        some (.ok host)⟩ := by
  unfold pollLoop
  simp only [hst.1, if_neg (not_lt.mpr hst.2), hcheck, if_pos hready]

/-- The loop on answers `DNS` / `IN_PROGRESS` followed by `READY`, from any
starting interval. -/
theorem pollLoop_until_ready (domain : String) (mids : List Host) (host : Host)
    (hmids : ∀ m ∈ mids, m.Status = StatusDNS ∨ m.Status = StatusInProgress)
    (hready : host.Status = StatusReady) :
    ∀ (script : List PollStep) (interval : Nat), (∀ st ∈ script, Undisturbed st) →
      script.map (fun st => st.CheckAnalysisStatus domain) = (mids ++ [host]).map Except.ok →
      (pollLoop domain script interval).result = some (.ok host) ∧
      checks (pollLoop domain script interval).trace =
        List.replicate (mids.length + 1) (.checkAnalysisStatus domain) ∧
      waits (pollLoop domain script interval).trace =
        interval :: mids.map fun m =>
          if m.Status = StatusDNS then PollIntervalInitial else PollIntervalRunning := by
  induction mids with
  | nil =>
    intro script interval hquiet hresp
    cases script with
    | nil => simp at hresp
    | cons st rest =>
      cases rest with
      | cons st' rest' => simp at hresp
      | nil =>
        have hcheck : st.CheckAnalysisStatus domain = .ok host := by simpa using hresp
        rw [pollLoop_ready domain st [] interval host (hquiet st (by simp)) hcheck hready]
        refine ⟨rfl, ?_, ?_⟩
        · show checks ([.wait interval, .checkAnalysisStatus domain] ++ _) = _
          rw [checks_append, checks_saveStatus]
          rfl
        · show waits ([.wait interval, .checkAnalysisStatus domain] ++ _) = _
          rw [waits_append, waits_saveStatus]
          rfl
  | cons m ms ih =>
    intro script interval hquiet hresp
    cases script with
    | nil => simp at hresp
    | cons st rest =>
      simp only [List.map_cons, List.cons_append, List.cons.injEq] at hresp
      obtain ⟨hcheck, hrest⟩ := hresp
      have hm := hmids m (by simp)
      have hd : StatusDNS ≠ StatusInProgress := by decide
      have hnt : ¬ Terminal m := by
        unfold Terminal
        rcases hm with h | h <;> rw [h] <;> decide
      have hnext : nextInterval interval m =
          if m.Status = StatusDNS then PollIntervalInitial else PollIntervalRunning := by
        unfold nextInterval
        rcases hm with h | h
        · rw [h, if_neg hd, if_pos rfl, if_pos rfl]
        · rw [h, if_pos rfl, if_neg hd.symm]
      obtain ⟨h1, h2, h3⟩ := ih (fun x hx => hmids x (List.mem_cons_of_mem _ hx)) rest
        (nextInterval interval m) (fun x hx => hquiet x (List.mem_cons_of_mem _ hx)) hrest
      rw [pollLoop_cons_keeps domain st rest interval m (hquiet st (by simp)) hcheck hnt]
      refine ⟨by rw [Run.after_result, h1], ?_, ?_⟩
      · rw [Run.after_trace, checks_append, checks_stepEvents, h2]
        rfl
      · rw [Run.after_trace, waits_append, waits_stepEvents, h3, hnext]
        rfl

theorem timeline_append (a b : List Event) : timeline (a ++ b) = timeline a ++ timeline b := by
  simp [timeline]

theorem timeline_saveStatus (st : PollStep) (domain : String) (host : Host) :
    timeline (saveStatus st domain host) = [] := by
  unfold saveStatus
  split <;> rfl

theorem timeline_reportProgress (host : Host) : timeline (reportProgress host) = [] := by
  unfold reportProgress timeline
  induction host.Endpoints.filter fun endpoint => decide (endpoint.Progress ≥ 0) with
  | nil => rfl
  | cons ep eps ih => simp [Event.isCheck, Event.isWait]

theorem timeline_stepEvents (st : PollStep) (domain : String) (interval : Nat) (host : Host) :
    timeline (stepEvents st domain interval host) =
      [.wait interval, .checkAnalysisStatus domain] := by
  unfold stepEvents
  rw [timeline_append, timeline_append, timeline_saveStatus]
  split
  · rw [timeline_reportProgress]
    rfl
  · rfl

/-- The waits and status checks of the loop on answers `DNS` / `IN_PROGRESS`
followed by `READY` alternate, every status check coming right after its wait. -/
theorem pollLoop_until_ready_timeline (domain : String) (mids : List Host) (host : Host)
    (hmids : ∀ m ∈ mids, m.Status = StatusDNS ∨ m.Status = StatusInProgress)
    (hready : host.Status = StatusReady) :
    ∀ (script : List PollStep) (interval : Nat), (∀ st ∈ script, Undisturbed st) →
      script.map (fun st => st.CheckAnalysisStatus domain) = (mids ++ [host]).map Except.ok →
      timeline (pollLoop domain script interval).trace =
        (interval :: mids.map fun m =>
          if m.Status = StatusDNS then PollIntervalInitial else PollIntervalRunning).flatMap
          fun d => [.wait d, .checkAnalysisStatus domain] := by
  induction mids with
  | nil =>
    intro script interval hquiet hresp
    cases script with
    | nil => simp at hresp
    | cons st rest =>
      cases rest with
      | cons st' rest' => simp at hresp
      | nil =>
        have hcheck : st.CheckAnalysisStatus domain = .ok host := by simpa using hresp
        rw [pollLoop_ready domain st [] interval host (hquiet st (by simp)) hcheck hready]
        show timeline ([.wait interval, .checkAnalysisStatus domain] ++ _) = _
        rw [timeline_append, timeline_saveStatus]
        rfl
  | cons m ms ih =>
    intro script interval hquiet hresp
    cases script with
    | nil => simp at hresp
    | cons st rest =>
      simp only [List.map_cons, List.cons_append, List.cons.injEq] at hresp
      obtain ⟨hcheck, hrest⟩ := hresp
      have hm := hmids m (by simp)
      have hd : StatusDNS ≠ StatusInProgress := by decide
      have hnt : ¬ Terminal m := by
        unfold Terminal
        rcases hm with h | h <;> rw [h] <;> decide
      have hnext : nextInterval interval m =
          if m.Status = StatusDNS then PollIntervalInitial else PollIntervalRunning := by
        unfold nextInterval
        rcases hm with h | h
        · rw [h, if_neg hd, if_pos rfl, if_pos rfl]
        · rw [h, if_pos rfl, if_neg hd.symm]
      have hrec := ih (fun x hx => hmids x (List.mem_cons_of_mem _ hx)) rest
        (nextInterval interval m) (fun x hx => hquiet x (List.mem_cons_of_mem _ hx)) hrest
      rw [pollLoop_cons_keeps domain st rest interval m (hquiet st (by simp)) hcheck hnt,
        Run.after_trace, timeline_append, timeline_stepEvents, hrec, hnext]
      rfl

/-- C10: on successful answers `DNS` / `IN_PROGRESS` followed by one `READY`
answer, without cancellation or timeout, `pollAnalysisStatus` returns the
`READY` host after exactly one status check per answer; every status check
comes right after its wait; the wait before the first check is
`PollIntervalInitial`, and the wait before each later check is
`PollIntervalInitial` after a `DNS` answer and `PollIntervalRunning` after an
`IN_PROGRESS` answer. -/
theorem pollAnalysisStatus_until_ready (domain : String) (script : List PollStep)
    (mids : List Host) (host : Host) (hquiet : ∀ st ∈ script, Undisturbed st)
    (hresp : script.map (fun st => st.CheckAnalysisStatus domain) =
      (mids ++ [host]).map Except.ok)
    (hmids : ∀ m ∈ mids, m.Status = StatusDNS ∨ m.Status = StatusInProgress)
    (hready : host.Status = StatusReady) :
    (pollAnalysisStatus script domain).result = some (.ok host) ∧
    checks (pollAnalysisStatus script domain).trace =
      List.replicate (mids.length + 1) (.checkAnalysisStatus domain) ∧
    waits (pollAnalysisStatus script domain).trace =
      (PollIntervalInitial :: mids.map fun m =>
        if m.Status = StatusDNS then PollIntervalInitial else PollIntervalRunning) ∧
    timeline (pollAnalysisStatus script domain).trace =
      (PollIntervalInitial :: mids.map fun m =>
        if m.Status = StatusDNS then PollIntervalInitial else PollIntervalRunning).flatMap
        fun d => [.wait d, .checkAnalysisStatus domain] := by
  obtain ⟨h1, h2, h3⟩ :=
    pollLoop_until_ready domain mids host hmids hready script PollIntervalInitial hquiet hresp
  exact ⟨h1, h2, h3,
    pollLoop_until_ready_timeline domain mids host hmids hready script PollIntervalInitial
      hquiet hresp⟩

/-- C10 on the answers `DNS, IN_PROGRESS, IN_PROGRESS, READY`: the `READY` host
is returned after four status checks, each right after its wait, and the waits
are 5 s before the first check, then 5 s, 10 s and 10 s between the calls. -/
theorem pollAnalysisStatus_until_ready_witness :
    ((pollAnalysisStatus sampleScript "example.com").result = some (.ok readyHost) ∧
      checks (pollAnalysisStatus sampleScript "example.com").trace =
        List.replicate ([dnsHost, progressHost, progressHost].length + 1)
          (.checkAnalysisStatus "example.com") ∧
      waits (pollAnalysisStatus sampleScript "example.com").trace =
        (PollIntervalInitial :: [dnsHost, progressHost, progressHost].map fun m =>
          if m.Status = StatusDNS then PollIntervalInitial else PollIntervalRunning) ∧
      timeline (pollAnalysisStatus sampleScript "example.com").trace =
        (PollIntervalInitial :: [dnsHost, progressHost, progressHost].map fun m =>
          if m.Status = StatusDNS then PollIntervalInitial else PollIntervalRunning).flatMap
          fun d => [.wait d, .checkAnalysisStatus "example.com"]) ∧
    waits (pollAnalysisStatus sampleScript "example.com").trace =
      [5000000000, 5000000000, 10000000000, 10000000000] ∧
    timeline (pollAnalysisStatus sampleScript "example.com").trace =
      [.wait 5000000000, .checkAnalysisStatus "example.com",
       .wait 5000000000, .checkAnalysisStatus "example.com",
       .wait 10000000000, .checkAnalysisStatus "example.com",
       .wait 10000000000, .checkAnalysisStatus "example.com"] :=
  ⟨pollAnalysisStatus_until_ready "example.com" sampleScript [dnsHost, progressHost, progressHost]
      readyHost (by decide) (by decide) (by decide) rfl,
    by decide, by decide⟩

/-! ## Timeout and cancellation -/

theorem saves_append (a b : List Event) : saves (a ++ b) = saves a ++ saves b := by
  simp [saves]

theorem pollLoop_nil (domain : String) (interval : Nat) :
    pollLoop domain [] interval = ⟨[], none⟩ := rfl

/-- Iterations that keep polling make up a run of their own that is still
going, with one status check each; a longer script continues from there. -/
theorem pollLoop_prefix (domain : String) (pre : List PollStep)
    (hpre : ∀ p ∈ pre, KeepsPolling domain p) (interval : Nat) :
    ∃ interval',
      (pollLoop domain pre interval).result = none ∧
      checks (pollLoop domain pre interval).trace =
        List.replicate pre.length (.checkAnalysisStatus domain) ∧
      ∀ rest, pollLoop domain (pre ++ rest) interval =
        (pollLoop domain rest interval').after (pollLoop domain pre interval).trace := by
  induction pre generalizing interval with
  | nil =>
    refine ⟨interval, rfl, rfl, ?_⟩
    intro rest
    rw [List.nil_append, pollLoop_nil]
    rfl
  | cons st pre ih =>
    obtain ⟨hst, host, hcheck, hnt⟩ := hpre st (by simp)
    obtain ⟨i', h1, h2, h3⟩ := ih (fun p hp => hpre p (List.mem_cons_of_mem _ hp))
      (nextInterval interval host)
    have hcons := pollLoop_cons_keeps domain st pre interval host hst hcheck hnt
    refine ⟨i', ?_, ?_, ?_⟩
    · rw [hcons, Run.after_result, h1]
    · rw [hcons, Run.after_trace, checks_append, checks_stepEvents, h2]
      rfl
    · intro rest
      rw [List.cons_append, pollLoop_cons_keeps domain st _ interval host hst hcheck hnt,
        h3 rest, hcons]
      simp [Run.after]

/-- An iteration whose wait is cut short by cancellation. -/
theorem pollLoop_cancelled (domain : String) (st : PollStep) (post : List PollStep)
    (interval : Nat) (ctxErr : String) (hc : st.cancelled = some ctxErr) :
    pollLoop domain (st :: post) interval =
      ⟨[.wait interval], some (.error (errCancelled ctxErr))⟩ := by
  unfold pollLoop
  simp only [hc]

/-- An iteration whose wait ends after the budget. -/
theorem pollLoop_late (domain : String) (st : PollStep) (post : List PollStep)
    (interval : Nat) (hc : st.cancelled = none) (hlate : MaxWaitTime < st.elapsed) :
    pollLoop domain (st :: post) interval = ⟨[.wait interval], some (.error errTimeout)⟩ := by
  unfold pollLoop
  simp only [hc, if_pos hlate]

/-- C12: when cancellation is signalled during a wait, the run returns the
cancellation error and no host, and its trace is the trace up to that wait
followed by the wait alone: no status check and no cache write come after. -/
theorem pollAnalysisStatus_cancelled (domain : String) (pre : List PollStep) (st : PollStep)
    (post : List PollStep) (ctxErr : String) (hpre : ∀ p ∈ pre, KeepsPolling domain p)
    (hc : st.cancelled = some ctxErr) :
    (pollAnalysisStatus (pre ++ st :: post) domain).result =
      some (.error (errCancelled ctxErr)) ∧
    (∃ interval, (pollAnalysisStatus (pre ++ st :: post) domain).trace =
      (pollAnalysisStatus pre domain).trace ++ [.wait interval]) ∧
    checks (pollAnalysisStatus (pre ++ st :: post) domain).trace =
      checks (pollAnalysisStatus pre domain).trace ∧
    saves (pollAnalysisStatus (pre ++ st :: post) domain).trace =
      saves (pollAnalysisStatus pre domain).trace := by
  obtain ⟨i', -, -, h3⟩ := pollLoop_prefix domain pre hpre PollIntervalInitial
  have hrun := h3 (st :: post)
  rw [pollLoop_cancelled domain st post i' ctxErr hc] at hrun
  unfold pollAnalysisStatus
  rw [hrun]
  refine ⟨rfl, ⟨i', rfl⟩, ?_, ?_⟩
  · rw [Run.after_trace, checks_append]
    exact List.append_nil _
  · rw [Run.after_trace, saves_append]
    exact List.append_nil _

/-- C12 on a run cancelled during its second wait. -/
theorem pollAnalysisStatus_cancelled_witness :
    (pollAnalysisStatus cancelledScript "example.com").result =
      some (.error (errCancelled "context canceled")) ∧
    (∃ interval, (pollAnalysisStatus cancelledScript "example.com").trace =
      (pollAnalysisStatus [answer dnsHost] "example.com").trace ++ [.wait interval]) ∧
    checks (pollAnalysisStatus cancelledScript "example.com").trace =
      checks (pollAnalysisStatus [answer dnsHost] "example.com").trace ∧
    saves (pollAnalysisStatus cancelledScript "example.com").trace =
      saves (pollAnalysisStatus [answer dnsHost] "example.com").trace :=
  pollAnalysisStatus_cancelled "example.com" [answer dnsHost]
    { cancelled := some "context canceled", CheckAnalysisStatus := fun _ => .ok readyHost }
    [answer readyHost] "context canceled"
    (fun p hp => by
      rw [List.mem_singleton.mp hp]
      exact ⟨by decide, dnsHost, rfl, by decide⟩)
    rfl

theorem inProgress_not_terminal {host : Host} (h : host.Status = StatusInProgress) :
    ¬ Terminal host := by
  unfold Terminal
  rw [h]
  decide

theorem nextInterval_inProgress (interval : Nat) {host : Host}
    (h : host.Status = StatusInProgress) : nextInterval interval host = PollIntervalRunning := by
  unfold nextInterval
  rw [if_pos h]

/-- One undisturbed iteration answering `IN_PROGRESS`, under `paced`. -/
theorem pollLoop_cons_inProgress (domain : String) (st : PollStep) (rest : List PollStep)
    (before interval : Nat) (hc : st.cancelled = none) (hp : AnswersInProgress domain st)
    (hpaced : paced domain (st :: rest) before interval = true)
    (hin : st.elapsed ≤ MaxWaitTime) :
    before + interval ≤ st.elapsed ∧
    paced domain rest st.elapsed PollIntervalRunning = true ∧
    (pollLoop domain (st :: rest) interval).result =
      (pollLoop domain rest PollIntervalRunning).result ∧
    checks (pollLoop domain (st :: rest) interval).trace =
      .checkAnalysisStatus domain :: checks (pollLoop domain rest PollIntervalRunning).trace := by
  obtain ⟨host, hcheck, hstatus⟩ := hp
  have hnt := inProgress_not_terminal hstatus
  have hnext := nextInterval_inProgress interval hstatus
  have hcons := fun r => pollLoop_cons_keeps domain st r interval host ⟨hc, hin⟩ hcheck hnt
  simp only [paced, hcheck, hnext, Bool.and_eq_true, decide_eq_true_eq] at hpaced
  refine ⟨hpaced.1, hpaced.2, ?_, ?_⟩
  · rw [hcons rest, hnext, Run.after_result]
  · rw [hcons rest, hnext, Run.after_trace, checks_append, checks_stepEvents]
    rfl

/-- From the running cadence, with every answer `IN_PROGRESS` and the clock
advancing by the interval at every wait, the status checks fit in what is left
of the budget, and the loop ends with the timeout error unless the script
ends first. -/
theorem pollLoop_running_budget (domain : String) (script : List PollStep) :
    ∀ before : Nat,
      (∀ st ∈ script, st.cancelled = none ∧ AnswersInProgress domain st) →
      paced domain script before PollIntervalRunning = true →
      (checks (pollLoop domain script PollIntervalRunning).trace).length * PollIntervalRunning ≤
        MaxWaitTime - before ∧
      ((pollLoop domain script PollIntervalRunning).result = some (.error errTimeout) ∨
        ((pollLoop domain script PollIntervalRunning).result = none ∧
          (checks (pollLoop domain script PollIntervalRunning).trace).length =
            script.length)) := by
  induction script with
  | nil =>
    intro before _ _
    exact ⟨by simp [pollLoop_nil, checks], Or.inr ⟨rfl, rfl⟩⟩
  | cons st rest ih =>
    intro before hall hpaced
    obtain ⟨hc, hp⟩ := hall st (by simp)
    by_cases hlate : MaxWaitTime < st.elapsed
    · rw [pollLoop_late domain st rest _ hc hlate]
      exact ⟨by simp [checks, Event.isCheck], Or.inl rfl⟩
    · obtain ⟨h1, h2, h3, h4⟩ := pollLoop_cons_inProgress domain st rest before
        PollIntervalRunning hc hp hpaced (not_lt.mp hlate)
      obtain ⟨ih1, ih2⟩ := ih st.elapsed
        (fun x hx => hall x (List.mem_cons_of_mem _ hx)) h2
      have hR : PollIntervalRunning = 10000000000 := rfl
      rw [h4, List.length_cons]
      refine ⟨?_, ?_⟩
      · rw [hR] at h1 ih1 ⊢
        omega
      · rw [h3]
        rcases ih2 with h | ⟨h, hlen⟩
        · exact Or.inl h
        · exact Or.inr ⟨h, by rw [hlen, List.length_cons]⟩

/-- C11: an iteration whose wait ends with more than `MaxWaitTime` elapsed
returns the timeout error without a status check, whatever was answered
before; and if every status check answers `IN_PROGRESS`, nothing is cancelled
and every wait advances the clock by at least the poll interval, there are at
most 90 status checks and the run ends with the timeout error (91 iterations
are enough). -/
theorem pollAnalysisStatus_timeout (domain : String) :
    (∀ (pre : List PollStep) (st : PollStep) (post : List PollStep),
      (∀ p ∈ pre, KeepsPolling domain p) → st.cancelled = none → MaxWaitTime < st.elapsed →
      (pollAnalysisStatus (pre ++ st :: post) domain).result = some (.error errTimeout) ∧
      (∃ interval, (pollAnalysisStatus (pre ++ st :: post) domain).trace =
        (pollAnalysisStatus pre domain).trace ++ [.wait interval]) ∧
      checks (pollAnalysisStatus (pre ++ st :: post) domain).trace =
        List.replicate pre.length (.checkAnalysisStatus domain)) ∧
    (∀ script : List PollStep,
      (∀ st ∈ script, st.cancelled = none ∧ AnswersInProgress domain st) →
      paced domain script 0 PollIntervalInitial = true →
      (checks (pollAnalysisStatus script domain).trace).length ≤ 90 ∧
      (91 ≤ script.length →
        (pollAnalysisStatus script domain).result = some (.error errTimeout))) := by
  constructor
  · intro pre st post hpre hc hlate
    obtain ⟨i', -, h2, h3⟩ := pollLoop_prefix domain pre hpre PollIntervalInitial
    have hrun := h3 (st :: post)
    rw [pollLoop_late domain st post i' hc hlate] at hrun
    unfold pollAnalysisStatus
    rw [hrun]
    refine ⟨rfl, ⟨i', rfl⟩, ?_⟩
    rw [Run.after_trace, checks_append, h2]
    exact List.append_nil _
  · intro script hall hpaced
    unfold pollAnalysisStatus
    cases script with
    | nil => exact ⟨by simp [pollLoop_nil, checks], fun h => by simp at h⟩
    | cons st rest =>
      obtain ⟨hc, hp⟩ := hall st (by simp)
      by_cases hlate : MaxWaitTime < st.elapsed
      · rw [pollLoop_late domain st rest _ hc hlate]
        exact ⟨by simp [checks, Event.isCheck], fun _ => rfl⟩
      · obtain ⟨h1, h2, h3, h4⟩ := pollLoop_cons_inProgress domain st rest 0
          PollIntervalInitial hc hp hpaced (not_lt.mp hlate)
        obtain ⟨b1, b2⟩ := pollLoop_running_budget domain rest st.elapsed
          (fun x hx => hall x (List.mem_cons_of_mem _ hx)) h2
        have b1' : (checks (pollLoop domain rest PollIntervalRunning).trace).length *
            10000000000 ≤ 900000000000 - st.elapsed := b1
        have h1' : 0 + 5000000000 ≤ st.elapsed := h1
        have hfew : (checks (pollLoop domain rest PollIntervalRunning).trace).length ≤ 89 := by
          omega
        rw [h4, List.length_cons]
        refine ⟨by omega, ?_⟩
        intro hlen
        rw [h3]
        rcases b2 with h | ⟨-, hl⟩
        · exact h
        · simp only [List.length_cons] at hlen
          omega

/-- C11 on a wait that ends after 901 s, and on a service that answers
`IN_PROGRESS` for ever while each wait lasts exactly the poll interval. -/
theorem pollAnalysisStatus_timeout_witness :
    ((pollAnalysisStatus lateScript "example.com").result = some (.error errTimeout) ∧
      (∃ interval, (pollAnalysisStatus lateScript "example.com").trace =
        (pollAnalysisStatus [answer progressHost] "example.com").trace ++ [.wait interval]) ∧
      checks (pollAnalysisStatus lateScript "example.com").trace =
        List.replicate 1 (.checkAnalysisStatus "example.com")) ∧
    (checks (pollAnalysisStatus steadyScript "example.com").trace).length ≤ 90 ∧
    (pollAnalysisStatus steadyScript "example.com").result = some (.error errTimeout) ∧
    (checks (pollAnalysisStatus steadyScript "example.com").trace).length = 90 :=
  ⟨(pollAnalysisStatus_timeout "example.com").1 [answer progressHost]
      { elapsed := 901 * Second, CheckAnalysisStatus := fun _ => .ok readyHost }
      [answer readyHost]
      (fun p hp => by
        rw [List.mem_singleton.mp hp]
        exact ⟨by decide, progressHost, rfl, by decide⟩)
      rfl (by decide),
    ((pollAnalysisStatus_timeout "example.com").2 steadyScript
      (fun st hst => by
        obtain ⟨i, -, rfl⟩ := List.mem_map.mp hst
        exact ⟨rfl, progressHost, rfl, rfl⟩)
      (by decide)).1,
    ((pollAnalysisStatus_timeout "example.com").2 steadyScript
      (fun st hst => by
        obtain ⟨i, -, rfl⟩ := List.mem_map.mp hst
        exact ⟨rfl, progressHost, rfl, rfl⟩)
      (by decide)).2 (by decide),
    by decide⟩

/-! ## Cache writes and unknown statuses -/

/-- An undisturbed iteration whose status check fails. -/
theorem pollLoop_check_error (domain : String) (st : PollStep) (post : List PollStep)
    (interval : Nat) (err : String) (hst : Undisturbed st)
    (hcheck : st.CheckAnalysisStatus domain = .error err) :
    pollLoop domain (st :: post) interval =
      ⟨[.wait interval, .checkAnalysisStatus domain], some (.error (errCheckStatus err))⟩ := by
  unfold pollLoop
  simp only [hst.1, if_neg (not_lt.mpr hst.2), hcheck]

/-- An undisturbed iteration answering `ERROR`, with its trace. -/
theorem pollLoop_error_run (domain : String) (st : PollStep) (post : List PollStep)
    (interval : Nat) (host : Host) (hst : Undisturbed st)
    (hcheck : st.CheckAnalysisStatus domain = .ok host) (herr : host.Status = StatusError) :
    pollLoop domain (st :: post) interval =
      ⟨[.wait interval, .checkAnalysisStatus domain] ++ saveStatus st domain host,
        some (.error (errAnalysisFailed host.StatusMessage))⟩ := by
  have hr : ¬ host.Status = StatusReady := by
    rw [herr]
    decide
  unfold pollLoop
  simp only [hst.1, if_neg (not_lt.mpr hst.2), hcheck, if_neg hr, if_pos herr]

theorem checks_terminal_step (st : PollStep) (domain : String) (interval : Nat) (host : Host) :
    checks ([.wait interval, .checkAnalysisStatus domain] ++ saveStatus st domain host) =
      [.checkAnalysisStatus domain] := by
  rw [checks_append, checks_saveStatus]
  rfl

theorem waits_terminal_step (st : PollStep) (domain : String) (interval : Nat) (host : Host) :
    waits ([.wait interval, .checkAnalysisStatus domain] ++ saveStatus st domain host) =
      [interval] := by
  rw [waits_append, waits_saveStatus]
  rfl

/-- The loop does not look at what the cache writes answer. -/
theorem pollLoop_ignores_saves (domain : String) (s₁ s₂ : List PollStep)
    (h : List.Forall₂ SameButSaves s₁ s₂) :
    ∀ interval : Nat,
      (pollLoop domain s₁ interval).result = (pollLoop domain s₂ interval).result ∧
      checks (pollLoop domain s₁ interval).trace = checks (pollLoop domain s₂ interval).trace ∧
      waits (pollLoop domain s₁ interval).trace = waits (pollLoop domain s₂ interval).trace := by
  induction h with
  | nil => exact fun _ => ⟨rfl, rfl, rfl⟩
  | @cons a b l₁ l₂ hab _ ih =>
    intro interval
    obtain ⟨hc, he, hk⟩ := hab
    cases hcan : a.cancelled with
    | some ctxErr =>
      rw [pollLoop_cancelled domain a l₁ interval ctxErr hcan,
        pollLoop_cancelled domain b l₂ interval ctxErr (hc ▸ hcan)]
      exact ⟨rfl, rfl, rfl⟩
    | none =>
      have hcb : b.cancelled = none := hc ▸ hcan
      by_cases hlate : MaxWaitTime < a.elapsed
      · rw [pollLoop_late domain a l₁ interval hcan hlate,
          pollLoop_late domain b l₂ interval hcb (he ▸ hlate)]
        exact ⟨rfl, rfl, rfl⟩
      · have hua : Undisturbed a := ⟨hcan, not_lt.mp hlate⟩
        have hub : Undisturbed b := ⟨hcb, he ▸ not_lt.mp hlate⟩
        cases hchk : a.CheckAnalysisStatus domain with
        | error err =>
          rw [pollLoop_check_error domain a l₁ interval err hua hchk,
            pollLoop_check_error domain b l₂ interval err hub (hk ▸ hchk)]
          exact ⟨rfl, rfl, rfl⟩
        | ok host =>
          have hchkb : b.CheckAnalysisStatus domain = .ok host := hk ▸ hchk
          by_cases hr : host.Status = StatusReady
          · rw [pollLoop_ready domain a l₁ interval host hua hchk hr,
              pollLoop_ready domain b l₂ interval host hub hchkb hr]
            refine ⟨rfl, ?_, ?_⟩
            · show checks (_ ++ _) = checks (_ ++ _)
              rw [checks_terminal_step, checks_terminal_step]
            · show waits (_ ++ _) = waits (_ ++ _)
              rw [waits_terminal_step, waits_terminal_step]
          · by_cases hx : host.Status = StatusError
            · rw [pollLoop_error_run domain a l₁ interval host hua hchk hx,
                pollLoop_error_run domain b l₂ interval host hub hchkb hx]
              refine ⟨rfl, ?_, ?_⟩
              · show checks (_ ++ _) = checks (_ ++ _)
                rw [checks_terminal_step, checks_terminal_step]
              · show waits (_ ++ _) = waits (_ ++ _)
                rw [waits_terminal_step, waits_terminal_step]
            · have hnt : ¬ Terminal host := fun ht => ht.elim hr hx
              obtain ⟨i1, i2, i3⟩ := ih (nextInterval interval host)
              rw [pollLoop_cons_keeps domain a l₁ interval host hua hchk hnt,
                pollLoop_cons_keeps domain b l₂ interval host hub hchkb hnt]
              refine ⟨by rw [Run.after_result, Run.after_result, i1], ?_, ?_⟩
              · rw [Run.after_trace, Run.after_trace, checks_append, checks_append,
                  checks_stepEvents, checks_stepEvents, i2]
              · rw [Run.after_trace, Run.after_trace, waits_append, waits_append,
                  waits_stepEvents, waits_stepEvents, i3]

/-- C13: two runs of `pollAnalysisStatus` with the same status-check answers,
clock readings and cancellation, differing only in which cache writes fail,
return the same host or error, issue the same status checks and wait the same
intervals; a failing cache write never ends the run. -/
theorem pollAnalysisStatus_ignores_saves (domain : String) (s₁ s₂ : List PollStep)
    (h : List.Forall₂ SameButSaves s₁ s₂) :
    (pollAnalysisStatus s₁ domain).result = (pollAnalysisStatus s₂ domain).result ∧
    checks (pollAnalysisStatus s₁ domain).trace = checks (pollAnalysisStatus s₂ domain).trace ∧
    waits (pollAnalysisStatus s₁ domain).trace = waits (pollAnalysisStatus s₂ domain).trace :=
  pollLoop_ignores_saves domain s₁ s₂ h PollIntervalInitial

/-- C13 on the answers `DNS, IN_PROGRESS, IN_PROGRESS, READY`, once with every
cache write failing and once with every cache write succeeding: both runs
return the `READY` host. -/
theorem pollAnalysisStatus_ignores_saves_witness :
    ((pollAnalysisStatus unsavedScript "example.com").result =
        (pollAnalysisStatus sampleScript "example.com").result ∧
      checks (pollAnalysisStatus unsavedScript "example.com").trace =
        checks (pollAnalysisStatus sampleScript "example.com").trace ∧
      waits (pollAnalysisStatus unsavedScript "example.com").trace =
        waits (pollAnalysisStatus sampleScript "example.com").trace) ∧
    (pollAnalysisStatus unsavedScript "example.com").result = some (.ok readyHost) ∧
    Event.print (warnCacheSave "disk full") ∈
      (pollAnalysisStatus unsavedScript "example.com").trace :=
  ⟨pollAnalysisStatus_ignores_saves "example.com" unsavedScript sampleScript
      (.cons ⟨rfl, rfl, rfl⟩ (.cons ⟨rfl, rfl, rfl⟩ (.cons ⟨rfl, rfl, rfl⟩
        (.cons ⟨rfl, rfl, rfl⟩ .nil)))),
    by decide, by decide⟩

/-- Every iteration begins with the wait for the interval in force. -/
theorem pollLoop_cons_trace (domain : String) (st : PollStep) (rest : List PollStep)
    (interval : Nat) :
    ∃ evs, (pollLoop domain (st :: rest) interval).trace = .wait interval :: evs := by
  unfold pollLoop
  split
  · exact ⟨_, rfl⟩
  · split
    · exact ⟨_, rfl⟩
    · split
      · exact ⟨_, rfl⟩
      · simp only
        split
        · exact ⟨_, rfl⟩
        · split
          · exact ⟨_, rfl⟩
          · split
            · exact ⟨_, rfl⟩
            · split
              · exact ⟨_, rfl⟩
              · exact ⟨_, rfl⟩

/-- C15 as stated fails: after a first answer `QUEUED` the next wait is the
initial 5 s, whereas after a first answer `IN_PROGRESS` it is the running 10 s. -/
theorem pollAnalysisStatus_unknown_keeps_initial_interval :
    UnknownStatus queuedHost ∧
    waits (pollAnalysisStatus queuedScript "example.com").trace =
      [PollIntervalInitial, PollIntervalInitial] ∧
    waits (pollAnalysisStatus progressScript "example.com").trace =
      [PollIntervalInitial, PollIntervalRunning] ∧
    PollIntervalInitial ≠ PollIntervalRunning := by
  decide

/-- C15, amended: on a successful status check whose status is none of `DNS`,
`IN_PROGRESS`, `READY`, `ERROR` the loop neither returns nor fails: it writes
the cache and goes round again with the poll interval unchanged, so that the
next wait lasts as long as the one before the answer. -/
theorem pollLoop_unknown_status (domain : String) (st : PollStep) (rest : List PollStep)
    (interval : Nat) (host : Host) (hst : Undisturbed st)
    (hcheck : st.CheckAnalysisStatus domain = .ok host) (hunk : UnknownStatus host) :
    pollLoop domain (st :: rest) interval =
      (pollLoop domain rest interval).after
        ([.wait interval, .checkAnalysisStatus domain] ++ saveStatus st domain host) ∧
    (∀ nxt more, rest = nxt :: more →
      ∃ tail, waits (pollLoop domain (st :: rest) interval).trace =
        interval :: interval :: tail) := by
  obtain ⟨hd, hp, hr, he⟩ := hunk
  have hrun : pollLoop domain (st :: rest) interval =
      (pollLoop domain rest interval).after
        ([.wait interval, .checkAnalysisStatus domain] ++ saveStatus st domain host) := by
    conv_lhs => unfold pollLoop
    simp only [hst.1, if_neg (not_lt.mpr hst.2), hcheck, if_neg hr, if_neg he, if_neg hp,
      if_neg hd]
  refine ⟨hrun, ?_⟩
  intro nxt more hrest
  obtain ⟨evs, hevs⟩ := pollLoop_cons_trace domain nxt more interval
  refine ⟨waits evs, ?_⟩
  rw [hrun, Run.after_trace, waits_append, waits_terminal_step, hrest, hevs]
  rfl

/-- C15 amended, on the answers `QUEUED, READY` from the initial interval. -/
theorem pollLoop_unknown_status_witness :
    pollLoop "example.com" queuedScript PollIntervalInitial =
      (pollLoop "example.com" [answer readyHost] PollIntervalInitial).after
        ([.wait PollIntervalInitial, .checkAnalysisStatus "example.com"] ++
          saveStatus (answer queuedHost) "example.com" queuedHost) ∧
    (∃ tail, waits (pollLoop "example.com" queuedScript PollIntervalInitial).trace =
      PollIntervalInitial :: PollIntervalInitial :: tail) :=
  ⟨(pollLoop_unknown_status "example.com" (answer queuedHost) [answer readyHost]
      PollIntervalInitial queuedHost (by decide) rfl (by decide)).1,
    (pollLoop_unknown_status "example.com" (answer queuedHost) [answer readyHost]
      PollIntervalInitial queuedHost (by decide) rfl (by decide)).2 (answer readyHost) [] rfl⟩

/-! ## The report without colours -/

/-- With colours disabled `colorize`, `bold` and `reset` add no escape sequence. -/
theorem colorize_without_colours (text color : String) :
    (NewFormatter false).colorize text color = text ∧ (NewFormatter false).bold text = text ∧
      (NewFormatter false).reset = "" :=
  ⟨rfl, rfl, rfl⟩

theorem printHeader_undated (f : Formatter) (rt rt' : Runtime) (host : Host)
    (h : ¬ host.TestTime > 0) : f.printHeader rt host = f.printHeader rt' host := by
  unfold Formatter.printHeader
  rw [if_neg h, if_neg h]

theorem printEndpoint_not_ready (f : Formatter) (rt rt' : Runtime) (i : Nat)
    (endpoint : Endpoint) (h : endpoint.StatusMessage ≠ "Ready") :
    f.printEndpoint rt i endpoint = f.printEndpoint rt' i endpoint := by
  unfold Formatter.printEndpoint
  rw [if_pos h, if_pos h]

/-- A report without a test date whose endpoints all failed reads nothing
from the runtime. -/
theorem printReport_runtime_free (f : Formatter) (rt rt' : Runtime) (host : Host)
    (hdate : ¬ host.TestTime > 0)
    (hall : ∀ endpoint ∈ host.Endpoints, endpoint.StatusMessage ≠ "Ready") :
    f.PrintReport rt host = f.PrintReport rt' host := by
  have hmap : host.Endpoints.enum.map (fun p => f.printEndpoint rt p.1 p.2) =
      host.Endpoints.enum.map (fun p => f.printEndpoint rt' p.1 p.2) :=
    List.map_congr_left fun p hp =>
      printEndpoint_not_ready f rt rt' p.1 p.2 (hall p.2 (List.snd_mem_of_mem_enum hp))
  unfold Formatter.PrintReport
  rw [printHeader_undated f rt rt' host hdate, hmap]

/-- C14 fails on the code: with colours disabled, the report of a host whose
text fields contain no escape character, and whose endpoint could not be
reached, still carries the red and reset sequences around the `Estado:` line;
the report of an endpoint without vulnerabilities carries the green one. -/
theorem printReport_without_colours_has_escapes (rt : Runtime) :
    cleanHost unreachableHost = true ∧
    (NewFormatter false).PrintReport rt unreachableHost =
      "════════════════════════════════════════════════════════════\n" ++
      " REPORTE DE ANÁLISIS TLS - SSL Labs \n" ++
      "════════════════════════════════════════════════════════════\n" ++
      "Dominio: example.com\nPuerto: 443\nProtocolo: http\n" ++
      "Motor SSL Labs: 2.3.1\nCriterios de evaluación: 2009q\n" ++
      "════════════════════════════════════════════════════════════\n" ++
      "\n ENDPOINT #1 \nIP: 93.184.216.34\nCalificación: \nDuración del análisis: 0ms\n" ++
      "\n\x1b[31mEstado: Unable to connect to the server\x1b[0m\n" ++
      "════════════════════════════════════════════════════════════\n" ∧
    ColorRed.data <:+: ((NewFormatter false).PrintReport rt unreachableHost).data ∧
    cleanHost soundHost = true ∧
    ColorGreen.data <:+: ((NewFormatter false).PrintReport plainRuntime soundHost).data := by
  rw [printReport_runtime_free (NewFormatter false) rt plainRuntime unreachableHost
    (by decide) (by decide)]
  decide

end SSLScanner
